import Mathlib

/-!
Verification of the ClusterDuck operator console (`ClusterDuck.py`) against its
natural-language specification.  The Python source is shallowly embedded:
pure helpers become Lean functions on `String` / `List Char`, the JSON
payloads handled by the `json` module are modelled by an inductive `Json`
type with an executable serializer (Python `json.dumps(obj, indent=2)`) and
parser (Python `json.loads`), stateful GUI code becomes explicit state
passing, and fallible dynamic code returns `Except`.

Modelling notes, applying throughout:
* Python `str.upper` is modelled by ASCII upper-casing (`Char.toUpper`); the
  two agree on every ASCII string.
* JSON numbers are modelled as integers; floating-point literals are outside
  the model.  String escapes cover exactly what `json.dumps` emits with
  `ensure_ascii=False`: `\"`, `\\`, `\n`, `\t`, `\r`, `\b`, `\f` and
  `\u00XX` for the remaining control characters (the parser additionally
  accepts `\/` and general `\uXXXX`, as Python does).
* Python dict objects are modelled as association lists in insertion order;
  `dict.get` returns the last binding of a key, matching the last-wins
  behaviour of `json.loads` on duplicate keys.
-/

set_option linter.unusedVariables false

namespace ClusterDuck

/-! ## Python string primitives -/

/-- Python `str.strip()` whitespace set. -/
def isPyWs (c : Char) : Bool :=
  c = ' ' || c = '\t' || c = '\n' || c = '\r' || c = '\x0b' || c = '\x0c'

/-- Whitespace accepted between JSON tokens by Python's `json` module. -/
def isJsonWs (c : Char) : Bool :=
  c = ' ' || c = '\t' || c = '\n' || c = '\r'

/-- Python `str.strip()` on a character list. -/
def pyStripL (cs : List Char) : List Char :=
  ((cs.dropWhile isPyWs).reverse.dropWhile isPyWs).reverse

/-- Python `str.strip()`. -/
def pyStrip (s : String) : String :=
  String.mk (pyStripL s.toList)

/-- Python `str.upper()` (ASCII model). -/
def pyUpper (s : String) : String :=
  String.mk (s.toList.map Char.toUpper)

/-- Python `sub in s` substring containment, on character lists. -/
def containsL (pat : List Char) : List Char → Bool
  | [] => pat.isPrefixOf []
  | c :: rest => pat.isPrefixOf (c :: rest) || containsL pat rest

/-- Python `sub in s` substring containment. -/
def pyContains (s sub : String) : Bool :=
  containsL sub.toList s.toList

/-- Python `s.replace(pat, rep)` on character lists: replaces the
non-overlapping occurrences of a non-empty `pat` left to right.  (For an
empty `pat` Python inserts `rep` between characters; the source never
replaces an empty pattern, and this model returns the input unchanged.) -/
def pyReplaceF (pat rep : List Char) : Nat → List Char → List Char
  | 0, cs => cs
  | _, [] => []
  | fuel + 1, c :: rest =>
    if pat ≠ [] ∧ pat.isPrefixOf (c :: rest) then
      rep ++ pyReplaceF pat rep fuel ((c :: rest).drop pat.length)
    else
      c :: pyReplaceF pat rep fuel rest

/-- `pyReplaceF` with enough fuel to scan the whole input (every step
consumes at least one character). -/
def pyReplaceL (pat rep cs : List Char) : List Char :=
  pyReplaceF pat rep cs.length cs

/-- Python `s.replace(pat, rep)`. -/
def pyReplace (s pat rep : String) : String :=
  String.mk (pyReplaceL pat.toList rep.toList s.toList)

/-- Python `s.find(ch)`: index of the first occurrence, `-1` if absent. -/
def pyFindChar (s : String) (ch : Char) : Int :=
  match s.toList.findIdx? (fun c => c = ch) with
  | some i => (i : Int)
  | none => -1

/-- Python `s.rfind(ch)`: index of the last occurrence, `-1` if absent. -/
def pyRfindChar (s : String) (ch : Char) : Int :=
  match s.toList.reverse.findIdx? (fun c => c = ch) with
  | some i => (s.length : Int) - 1 - (i : Int)
  | none => -1

/-- Normalise a Python slice index: negative indices count from the end,
then the result is clamped into `[0, n]`. -/
def pySliceIdx (n : Nat) (i : Int) : Nat :=
  let j := if i < 0 then i + n else i
  (max 0 (min j n)).toNat

/-- Python `s[a:b]`. -/
def pySlice (s : String) (a b : Int) : String :=
  let cs := s.toList
  let lo := pySliceIdx cs.length a
  let hi := pySliceIdx cs.length b
  String.mk ((cs.take hi).drop lo)

/-- Python `s[a:]`. -/
def pySliceFrom (s : String) (a : Int) : String :=
  pySlice s a (s.length : Int)

/-- Python `str.startswith` (used on stripped commands). -/
def pyStartsWith (s pre : String) : Bool :=
  pre.toList.isPrefixOf s.toList

/-! ## Decimal rendering of integers (Python `str` of `int`, as emitted by
`json.dumps`) -/

/-- The decimal digit character for `n < 10`. -/
def digitChar (n : Nat) : Char := Char.ofNat (48 + n)

/-- Decimal digits, fuel-indexed (the fuel dominates the value). -/
def natSerF : Nat → Nat → List Char
  | 0, _ => []
  | fuel + 1, n =>
    if n < 10 then [digitChar n] else natSerF fuel (n / 10) ++ [digitChar (n % 10)]

/-- Decimal digits of a natural number, most significant first. -/
def natSer (n : Nat) : List Char := natSerF (n + 1) n

/-- Decimal rendering of an integer. -/
def intSer (i : Int) : List Char :=
  if i < 0 then '-' :: natSer i.natAbs else natSer i.natAbs

/-! ## The JSON data model (`json.loads` / `json.dumps`) -/

/-- JSON values as produced by Python's `json.loads` (numbers restricted to
integers; objects as association lists in insertion order). -/
inductive Json where
  | null : Json
  | bool (b : Bool) : Json
  | num (n : Int) : Json
  | str (s : String) : Json
  | arr (xs : List Json) : Json
  | obj (kvs : List (String × Json)) : Json

mutual

/-- Size measure used as parser fuel accounting. -/
def Json.size : Json → Nat
  | .null => 1
  | .bool _ => 1
  | .num _ => 1
  | .str _ => 1
  | .arr xs => 1 + Json.sizeItems xs
  | .obj kvs => 1 + Json.sizePairs kvs

/-- Combined size of array elements (each weighted by one separator). -/
def Json.sizeItems : List Json → Nat
  | [] => 0
  | x :: xs => Json.size x + 1 + Json.sizeItems xs

/-- Combined size of object members (each weighted by one separator). -/
def Json.sizePairs : List (String × Json) → Nat
  | [] => 0
  | (_, v) :: ps => Json.size v + 1 + Json.sizePairs ps

end

/-- The hexadecimal digit character (lowercase) for `m < 16`. -/
def hexChar (m : Nat) : Char :=
  if m < 10 then Char.ofNat (48 + m) else Char.ofNat (87 + m)

/-- `json.dumps` escaping of one string character (`ensure_ascii=False`). -/
def escChar (c : Char) : List Char :=
  if c = '"' then ['\\', '"']
  else if c = '\\' then ['\\', '\\']
  else if c = '\n' then ['\\', 'n']
  else if c = '\t' then ['\\', 't']
  else if c = '\r' then ['\\', 'r']
  else if c = '\x08' then ['\\', 'b']
  else if c = '\x0c' then ['\\', 'f']
  else if c.toNat < 32 then
    ['\\', 'u', '0', '0', hexChar (c.toNat / 16), hexChar (c.toNat % 16)]
  else [c]

/-- `json.dumps` escaping of a string body. -/
def escStr : List Char → List Char
  | [] => []
  | c :: rest => escChar c ++ escStr rest

/-- `n` spaces (the indentation emitted by `json.dumps(indent=2)`). -/
def spaces (n : Nat) : List Char := List.replicate n ' '

mutual

/-- `json.dumps(v, indent=2)` at indentation level `ind`, following
Python's layout: empty containers render inline, non-empty containers put
each element on its own line, separators are `,` and `: `. -/
def serVal (ind : Nat) : Json → List Char
  | .null => "null".toList
  | .bool true => "true".toList
  | .bool false => "false".toList
  | .num i => intSer i
  | .str s => '"' :: (escStr s.toList ++ ['"'])
  | .arr [] => ['[', ']']
  | .arr (x :: xs) =>
    '[' :: '\n' :: (serItems (ind + 2) (x :: xs) ++ '\n' :: (spaces ind ++ [']']))
  | .obj [] => ['{', '}']
  | .obj (p :: ps) =>
    '{' :: '\n' :: (serPairs (ind + 2) (p :: ps) ++ '\n' :: (spaces ind ++ ['}']))

/-- Array elements, one per line at indentation `ind`, comma-separated. -/
def serItems (ind : Nat) : List Json → List Char
  | [] => []
  | [x] => spaces ind ++ serVal ind x
  | x :: y :: xs =>
    spaces ind ++ (serVal ind x ++ ',' :: '\n' :: serItems ind (y :: xs))

/-- Object members, one per line at indentation `ind`, comma-separated. -/
def serPairs (ind : Nat) : List (String × Json) → List Char
  | [] => []
  | [(k, v)] =>
    spaces ind ++ ('"' :: (escStr k.toList ++ '"' :: ':' :: ' ' :: serVal ind v))
  | (k, v) :: p :: ps =>
    spaces ind ++
      ('"' :: (escStr k.toList ++ '"' :: ':' :: ' ' :: serVal ind v)) ++
      ',' :: '\n' :: serPairs ind (p :: ps)

end

/-- `json.dumps(v, indent=2)` as a string. -/
def dumps (v : Json) : String := String.mk (serVal 0 v)

/-! ## The JSON parser (`json.loads`) -/

/-- Drop JSON inter-token whitespace. -/
def skipWs (cs : List Char) : List Char := cs.dropWhile isJsonWs

/-- Value of one hexadecimal digit character. -/
def hexVal (c : Char) : Option Nat :=
  if '0' ≤ c ∧ c ≤ '9' then some (c.toNat - 48)
  else if 'a' ≤ c ∧ c ≤ 'f' then some (c.toNat - 87)
  else if 'A' ≤ c ∧ c ≤ 'F' then some (c.toNat - 55)
  else none

/-- Decode the four hex digits of a `\uXXXX` escape, returning the decoded
character and the remaining input. -/
def readHex (r2 : List Char) : Option (Char × List Char) :=
  match r2 with
  | h1 :: h2 :: h3 :: h4 :: r3 =>
    match hexVal h1, hexVal h2, hexVal h3, hexVal h4 with
    | some a, some b, some c3, some d =>
      let n := ((a * 16 + b) * 16 + c3) * 16 + d
      if n.isValidChar then some (Char.ofNat n, r3) else none
    | _, _, _, _ => none
  | _ => none

/-- Prepend a character to the string part of a string-parse result. -/
def consRes (c : Char) (o : Option (List Char × List Char)) :
    Option (List Char × List Char) :=
  o.map (fun p => (c :: p.1, p.2))

/-- Read a JSON string body after the opening quote (fuel-indexed; the fuel
falls by one per step while the input falls by at least one, so the input
length is always enough fuel).  Returns the decoded characters and the
input after the closing quote.  As in Python's strict decoder, raw control
characters are rejected; `\uXXXX` escapes denoting surrogate code points
are not modelled. -/
def readStrF : Nat → List Char → Option (List Char × List Char)
  | 0, _ => none
  | fuel + 1, cs =>
    match cs with
    | [] => none
    | c :: rest =>
    if c = '"' then some ([], rest)
    else if c = '\\' then
      match rest with
      | [] => none
      | e :: r2 =>
        if e = '"' then consRes '"' (readStrF fuel r2)
        else if e = '\\' then consRes '\\' (readStrF fuel r2)
        else if e = '/' then consRes '/' (readStrF fuel r2)
        else if e = 'n' then consRes '\n' (readStrF fuel r2)
        else if e = 't' then consRes '\t' (readStrF fuel r2)
        else if e = 'r' then consRes '\r' (readStrF fuel r2)
        else if e = 'b' then consRes '\x08' (readStrF fuel r2)
        else if e = 'f' then consRes '\x0c' (readStrF fuel r2)
        else if e = 'u' then
          match readHex r2 with
          | some (ch, r3) => consRes ch (readStrF fuel r3)
          | none => none
        else none
    else if c.toNat < 32 then none
    else consRes c (readStrF fuel rest)

/-- `readStrF` with the input length as fuel. -/
def readStr (cs : List Char) : Option (List Char × List Char) :=
  readStrF cs.length cs

/-- Parse a run of decimal digits (the integer fragment of JSON numbers
handled by this model). -/
def parseNum (cs : List Char) : Option (Int × List Char) :=
  match cs with
  | [] => none
  | c :: t =>
    let neg := c = '-'
    let cs1 := if c = '-' then t else c :: t
    let ds := cs1.takeWhile Char.isDigit
    if ds = [] then none
    else
      let n : Nat := ds.foldl (fun a c2 => a * 10 + (c2.toNat - 48)) 0
      some (if neg then -(n : Int) else (n : Int), cs1.dropWhile Char.isDigit)

mutual

/-- Parse one JSON value (fuel-indexed recursion). -/
def parseVal : Nat → List Char → Option (Json × List Char)
  | 0, _ => none
  | fuel + 1, cs =>
    match skipWs cs with
    | [] => none
    | c :: rest =>
      if c = '{' then
        match skipWs rest with
        | '}' :: r2 => some (.obj [], r2)
        | _ => (parsePairs fuel rest).map (fun p => (Json.obj p.1, p.2))
      else if c = '[' then
        match skipWs rest with
        | ']' :: r2 => some (.arr [], r2)
        | _ => (parseItems fuel rest).map (fun p => (Json.arr p.1, p.2))
      else if c = '"' then
        (readStr rest).map (fun p => (Json.str (String.mk p.1), p.2))
      else if c = 't' then
        match rest with
        | 'r' :: 'u' :: 'e' :: r2 => some (.bool true, r2)
        | _ => none
      else if c = 'f' then
        match rest with
        | 'a' :: 'l' :: 's' :: 'e' :: r2 => some (.bool false, r2)
        | _ => none
      else if c = 'n' then
        match rest with
        | 'u' :: 'l' :: 'l' :: r2 => some (.null, r2)
        | _ => none
      else if c.isDigit || c = '-' then
        (parseNum (c :: rest)).map (fun p => (Json.num p.1, p.2))
      else none

/-- Parse the elements of a non-empty array, consuming the closing `]`. -/
def parseItems : Nat → List Char → Option (List Json × List Char)
  | 0, _ => none
  | fuel + 1, cs =>
    match parseVal fuel cs with
    | none => none
    | some (v, r1) =>
      match skipWs r1 with
      | ',' :: r2 => (parseItems fuel r2).map (fun p => (v :: p.1, p.2))
      | ']' :: r2 => some ([v], r2)
      | _ => none

/-- Parse the members of a non-empty object, consuming the closing `}`. -/
def parsePairs : Nat → List Char → Option (List (String × Json) × List Char)
  | 0, _ => none
  | fuel + 1, cs =>
    match skipWs cs with
    | '"' :: r0 =>
      match readStr r0 with
      | none => none
      | some (k, r1) =>
        match skipWs r1 with
        | ':' :: r2 =>
          match parseVal fuel r2 with
          | none => none
          | some (v, r3) =>
            match skipWs r3 with
            | ',' :: r4 =>
              (parsePairs fuel r4).map (fun p => ((String.mk k, v) :: p.1, p.2))
            | '}' :: r4 => some ([(String.mk k, v)], r4)
            | _ => none
        | _ => none
    | _ => none

end

/-- Python `json.loads`: parse a complete JSON document, allowing
surrounding whitespace only. -/
def loads (s : String) : Option Json :=
  match parseVal (s.length + 1) s.toList with
  | some (v, rest) => if skipWs rest = [] then some v else none
  | none => none

/-- A tail that cannot extend a number token: empty, or starting with a
non-digit. -/
def goodTail (rest : List Char) : Prop :=
  rest = [] ∨ ∃ c t, rest = c :: t ∧ c.isDigit = false

/-! ## Python truthiness and dynamic attribute access on loaded values -/

/-- Python `bool(v)` on a loaded JSON value. -/
def pyTruthy : Json → Bool
  | .null => false
  | .bool b => b
  | .num n => n != 0
  | .str s => !s.toList.isEmpty
  | .arr xs => !xs.isEmpty
  | .obj kvs => !kvs.isEmpty

/-- Python `bool(v)` where `v` may be `None`. -/
def pyTruthyOpt : Option Json → Bool
  | none => false
  | some j => pyTruthy j

/-- Last binding of a key in an association list (`json.loads` keeps the
last occurrence of a duplicate key in the Python dict it builds). -/
def alookLast {α : Type} : List (String × α) → String → Option α
  | [], _ => none
  | p :: t, k =>
    match alookLast t k with
    | some r => some r
    | none => if p.1 = k then some p.2 else none

/-- Python `d.get(k, default)`; raises `AttributeError` on a non-dict. -/
def jget (j : Json) (k : String) (d : Json) : Except String Json :=
  match j with
  | .obj kvs => .ok ((alookLast kvs k).getD d)
  | _ => .error "AttributeError: get"

/-- Require a Python `str` (a string method such as `.upper()` was called). -/
def asStr : Json → Except String String
  | .str s => .ok s
  | _ => .error "AttributeError: str method on non-string"

/-- Require a Python dict (`.items()` was called). -/
def asObj : Json → Except String (List (String × Json))
  | .obj kvs => .ok kvs
  | _ => .error "AttributeError: items"

/-- Python `iter(v)`: lists yield elements, strings yield characters,
dicts yield keys; anything else raises `TypeError`. -/
def pyIter : Json → Except String (List Json)
  | .arr xs => .ok xs
  | .str s => .ok (s.toList.map (fun c => Json.str (String.mk [c])))
  | .obj kvs => .ok (kvs.map (fun p => Json.str p.1))
  | _ => .error "TypeError: not iterable"

mutual

/-- Python `str(v)` of a loaded JSON value as interpolated by f-strings.
Containers render through `repr`; this model renders them with Python-style
brackets and single-quoted strings (an abstraction of `repr`, not
load-bearing for any claim). -/
def pyStr : Json → String
  | .null => "None"
  | .bool true => "True"
  | .bool false => "False"
  | .num n => String.mk (intSer n)
  | .str s => s
  | .arr xs => "[" ++ pyStrItems xs ++ "]"
  | .obj kvs => "\x7b" ++ pyStrPairs kvs ++ "\x7d"

/-- `repr` of one value inside a container (strings quoted). -/
def pyRepr : Json → String
  | .str s => "\x27" ++ s ++ "\x27"
  | v => pyStr v

/-- Comma-separated `repr`s of list elements. -/
def pyStrItems : List Json → String
  | [] => ""
  | [x] => pyRepr x
  | x :: y :: xs => pyRepr x ++ ", " ++ pyStrItems (y :: xs)

/-- Comma-separated `repr`s of dict entries. -/
def pyStrPairs : List (String × Json) → String
  | [] => ""
  | [(k, v)] => "\x27" ++ k ++ "\x27: " ++ pyRepr v
  | (k, v) :: p :: ps => "\x27" ++ k ++ "\x27: " ++ pyRepr v ++ ", " ++ pyStrPairs (p :: ps)

end

/-! ## Status resolver and pretty-printing helpers (module level) -/

/-- `get_led_color` (ClusterDuck.py:41-48): case-insensitive on `status`;
`role` is accepted but never used. -/
def get_led_color (status : String) (role : String) : String :=
  let statusU := pyUpper status
  if statusU = "ONLINE" then "green"
  else if statusU = "RECOVERING" || statusU = "RECOVERY" || statusU = "JOINING" then "yellow"
  else "red"

/-- The `raw[raw.find('{') : raw.rfind('}') + 1]` extraction idiom shared by
`format_cluster_status`, `_load_cluster_status` and `_beautify_if_json`. -/
def extractJson (s : String) : String :=
  pySlice s (pyFindChar s '{') (pyRfindChar s '}' + 1)

/-- `format_cluster_status` (ClusterDuck.py:205-214): pretty-print the JSON
found between the first brace and the last brace; on any failure fall back
to a tagged copy of the stripped raw text. -/
def format_cluster_status (raw : String) : String :=
  match loads (extractJson raw) with
  | some obj => dumps obj
  | none => "[Raw Cluster Output]\n" ++ pyStrip raw

/-- `format_cluster_status` applied to a dynamically-typed argument, as in
`ClusterGUI._exec_command` where it receives the result of `json.loads`
rather than a string.  On a non-string the body raises `AttributeError` at
`raw.find`, and the `except` handler raises `AttributeError` again at
`raw.strip()`, so the call fails. -/
def format_cluster_status_v : Json → Except String String
  | .str s => .ok (format_cluster_status s)
  | _ => .error "AttributeError"

/-- `ClusterGUI._beautify_if_json` (ClusterDuck.py:885-893): pretty-print
the brace-delimited JSON substring, or return the text unchanged. -/
def beautify_if_json (text : String) : String :=
  match loads (extractJson text) with
  | some parsed => dumps parsed
  | none => text

/-! ## The command catalog (`CLUSTER_COMMANDS`, ClusterDuck.py:287-463) -/

/-- One catalog entry: title, template, mode, risk, optional danger
description, optional hint. -/
structure CmdSpec where
  title : String
  template : String
  mode : String
  risk : String
  danger : Option String
  hint : Option String
deriving DecidableEq

/-- The fixed command catalog, in source order. -/
def CLUSTER_COMMANDS : List CmdSpec := [
  ⟨"Check Cluster Status", "dba.getCluster().status(\x7bextended:true\x7d)", "JS", "safe",
    none, some "Full topology, lag, errors, etc."⟩,
  ⟨"List Cluster Instances", "dba.getCluster().describe()", "JS", "safe", none, none⟩,
  ⟨"Rescan Topology", "dba.getCluster().rescan()", "JS", "safe", none, none⟩,
  ⟨"Check Instance Health", "dba.checkInstanceConfiguration(\x27<user>@<node>\x27)", "JS", "safe",
    none, none⟩,
  ⟨"Check Global Config", "dba.checkInstanceConfiguration()", "JS", "safe", none, none⟩,
  ⟨"Rejoin Instance", "dba.getCluster().rejoinInstance(\x27<node>\x27)", "JS", "safe", none, none⟩,
  ⟨"Set Primary Instance", "dba.getCluster().setPrimaryInstance(\x27<node>\x27)", "JS", "danger",
    some "Triggers failover; brief downtime for writers.", none⟩,
  ⟨"Force Rejoin (Clone)", "dba.getCluster().rejoinInstance(\x27<node>\x27,\x7bforce:true\x7d)",
    "JS", "danger", some "May discard transactions on the target.", none⟩,
  ⟨"Reboot From Complete Outage", "dba.rebootClusterFromCompleteOutage()", "JS", "danger",
    some "Last-resort operation when every node is offline.", none⟩,
  ⟨"Add Instance (Clone)",
    "dba.getCluster().addInstance(\x27<user>@<node>\x27,\x7brecoveryMethod:\x27clone\x27\x7d)",
    "JS", "danger", some "Target must be empty; will wipe existing data.", none⟩,
  ⟨"Remove Instance", "dba.getCluster().removeInstance(\x27<user>@<node>\x27)", "JS", "danger",
    some "Permanent; instance leaves the replication group.", none⟩,
  ⟨"Show Hostname / Port", "SELECT @@hostname AS Host, @@port AS Port;", "SQL", "safe",
    none, none⟩,
  ⟨"Show Cluster Members", "SELECT * FROM performance_schema.replication_group_members;",
    "SQL", "safe", none, none⟩,
  ⟨"Show Processlist", "SHOW FULL PROCESSLIST;", "SQL", "safe",
    none, some "Great for spotting long-running or locked queries."⟩,
  ⟨"Show Engine InnoDB Status", "SHOW ENGINE INNODB STATUS\\G", "SQL", "safe",
    none, some "Deadlocks, semaphores, purge lag, etc."⟩,
  ⟨"Show Replication Applier Status",
    "SELECT * FROM performance_schema.replication_applier_status;", "SQL", "safe", none, none⟩,
  ⟨"Show Replication Connection Status",
    "SELECT * FROM performance_schema.replication_connection_status;", "SQL", "safe", none, none⟩,
  ⟨"Check GTID Mode", "SELECT @@gtid_mode;", "SQL", "safe", none, none⟩,
  ⟨"Check Binlog Format", "SELECT @@global.binlog_format;", "SQL", "safe", none, none⟩,
  ⟨"Check SSL Settings", "SHOW VARIABLES LIKE \x27%ssl_mode%\x27;", "SQL", "safe", none, none⟩,
  ⟨"Server Version", "SELECT VERSION();", "SQL", "safe", none, none⟩,
  ⟨"Set Read-Only Mode", "SET GLOBAL super_read_only=ON; SET GLOBAL read_only=ON;",
    "SQL", "danger", some "Stops all writes on this node.", none⟩,
  ⟨"Set Read-Write Mode", "SET GLOBAL super_read_only=OFF; SET GLOBAL read_only=OFF;",
    "SQL", "danger", none, none⟩,
  ⟨"START Group Replication", "START GROUP_REPLICATION;", "SQL", "danger", none, none⟩,
  ⟨"STOP Group Replication", "STOP GROUP_REPLICATION;", "SQL", "danger", none, none⟩,
  ⟨"RESET MASTER (purge binary logs)", "RESET MASTER;", "SQL", "danger",
    some "Deletes *all* binlogs; replicas must resync with clone or backup.", none⟩]

/-- The catalog entry for "Set Read-Write Mode": `risk = "danger"` but no
`danger` description field. -/
def setReadWriteCmd : CmdSpec :=
  ⟨"Set Read-Write Mode", "SET GLOBAL super_read_only=OFF; SET GLOBAL read_only=OFF;",
    "SQL", "danger", none, none⟩

/-- The catalog entry for "Rejoin Instance" (template references `<node>`). -/
def rejoinInstanceCmd : CmdSpec :=
  ⟨"Rejoin Instance", "dba.getCluster().rejoinInstance(\x27<node>\x27)", "JS", "safe", none, none⟩

/-! ## Command dispatch (`ClusterGUI._run_command`, ClusterDuck.py:811-859) -/

/-- Placeholder substitution exactly as coded: four sequential
`str.replace` calls, in the order `<node>`, `<user>`, `<pass>` (with the
secret's single quotes backslash-escaped), then `<user>@<node>`. -/
def fill (tpl node user pw : String) : String :=
  pyReplace
    (pyReplace
      (pyReplace
        (pyReplace tpl "<node>" node)
        "<user>" user)
      "<pass>" (pyReplace pw "\x27" "\\\x27"))
    "<user>@<node>" (user ++ "@" ++ node)

/-- Placeholder substitution following the spec's words (§4.5): every
placeholder occurrence in the template is replaced using the original,
unsubstituted values — a single left-to-right scan of the template in which
the combined `<user>@<node>` token is matched before its parts and
replacement text is never rescanned (no nested substitution). -/
def fillSpecF (node user pwEsc : List Char) : Nat → List Char → List Char
  | 0, cs => cs
  | _, [] => []
  | fuel + 1, c :: rest =>
    if ("<user>@<node>".toList).isPrefixOf (c :: rest) then
      (user ++ '@' :: node) ++ fillSpecF node user pwEsc fuel ((c :: rest).drop 13)
    else if ("<node>".toList).isPrefixOf (c :: rest) then
      node ++ fillSpecF node user pwEsc fuel ((c :: rest).drop 6)
    else if ("<user>".toList).isPrefixOf (c :: rest) then
      user ++ fillSpecF node user pwEsc fuel ((c :: rest).drop 6)
    else if ("<pass>".toList).isPrefixOf (c :: rest) then
      pwEsc ++ fillSpecF node user pwEsc fuel ((c :: rest).drop 6)
    else
      c :: fillSpecF node user pwEsc fuel rest

/-- String wrapper for the spec-side substitution scanner (every step
consumes at least one character, so the input length is enough fuel). -/
def fillSpecModel (tpl node user pw : String) : String :=
  String.mk
    (fillSpecF node.toList user.toList (pyReplace pw "\x27" "\\\x27").toList
      tpl.toList.length tpl.toList)

/-- `_refresh_after` (ClusterDuck.py:839-841): the post-dispatch follow-up
refresh, as `(delay in ms, silent flag)`; `none` when no refresh is
scheduled. -/
def refresh_after (title : String) : Option (Nat × Bool) :=
  if title = "Set Primary Instance" then some (1000, true) else none

/-- Observable effects of one `_run_command` dispatch: log lines, whether
the confirmation dialog was shown, whether the status LED was switched to
blinking yellow, the work submitted to the executor (mode and payload;
`none` means zero subprocess invocations), and the scheduled follow-up
refresh. -/
structure DispatchOutcome where
  logs : List String
  confirmAsked : Bool
  ledBlinkYellow : Bool
  submitted : Option (String × String)
  refreshScheduled : Option (Nat × Bool)
deriving DecidableEq

/-- `ClusterGUI._run_command` (ClusterDuck.py:811-859).  `node` is the
currently selected node (empty string when none is selected, the falsy
value of the `StringVar`); `confirmAnswer` is the operator's reply should
the confirmation dialog be shown. -/
def run_command (cmd : CmdSpec) (node user pw : String) (confirmAnswer : Bool) :
    DispatchOutcome :=
  let needs_node := pyContains cmd.template "<node>"
  if needs_node && node == "" then
    ⟨["[ERROR] Select a node first!"], false, false, none, none⟩
  else if cmd.danger.isSome && !confirmAnswer then
    ⟨[], true, false, none, none⟩
  else
    let filled := fill cmd.template node user pw
    let sched := refresh_after cmd.title
    if cmd.mode == "SQL" then
      ⟨["[" ++ cmd.title ++ "]\n" ++ filled], cmd.danger.isSome, true,
        some ("SQL", filled), sched⟩
    else
      let js_to_run :=
        if !(pyStartsWith (pyStrip filled) "print(") then
          "print(JSON.stringify(" ++ filled ++ "))"
        else filled
      ⟨["[" ++ cmd.title ++ "]\n" ++ filled], cmd.danger.isSome, true,
        some ("JS", js_to_run), sched⟩

/-- Observable effects of `ClusterGUI._exec_command` after the shell
returned `out`: log lines and any refresh it schedules (delay, silent). -/
structure ExecOutcome where
  logs : List String
  sched : Option (Nat × Bool)
deriving DecidableEq

/-- `ClusterGUI._exec_command` (ClusterDuck.py:863-882), given the title and
the shell output `out`.  The `try` block calls `format_cluster_status` on
the *parsed* value `json.loads(out[out.find("{"):])`. -/
def exec_command (title out : String) : ExecOutcome :=
  if title = "Check Cluster Status" then
    let sub := pySliceFrom out (pyFindChar out '{')
    match loads sub with
    | none => ⟨[beautify_if_json out], none⟩
    | some j =>
      match format_cluster_status_v j with
      | .error _ => ⟨[beautify_if_json out], none⟩
      | .ok out2 =>
        ⟨[beautify_if_json out2],
          if title = "Set Primary Instance" then some (0, false) else some (0, true)⟩
  else ⟨[beautify_if_json out], none⟩

/-! ## The refresh pipeline (`ClusterGUI._load_cluster_status`,
ClusterDuck.py:614-645, and `_apply_cluster_status`, 650-727) -/

/-- Stand-in for the text of the `json.JSONDecodeError` raised by
`json.loads`; no claim depends on its contents. -/
def jsonErrMsg : String := "Expecting value"

/-- Result of one `_load_cluster_status` run: the caught-failure path (log
lines, summary text, LED), the normal hand-off to `_apply_cluster_status`,
or an exception escaping the method. -/
inductive LoadOutcome where
  | handledError (logs : List String) (summary : String) (led : String × Bool) : LoadOutcome
  | applied (logs : List String) (obj : Option Json) : LoadOutcome
  | uncaught (err : String) : LoadOutcome

/-- `ClusterGUI._load_cluster_status`.  `fetch1` and `fetch2` are the
results of its two successive `get_cluster_status` calls (`Except.error`
models the `RuntimeError` raised by `run_mysqlsh` on non-zero exit); only
the first call sits inside the `try`/`except`. -/
def load_cluster_status (fetch1 fetch2 : Except String String) (silent : Bool) :
    LoadOutcome :=
  match fetch1 with
  | .error e =>
    .handledError ["[ERROR] " ++ e]
      "Cluster: N/A  |  Status: connection error" ("redLED.png", false)
  | .ok _ =>
    let logs1 : List String := if silent then [] else ["Getting cluster status using URI:"]
    match fetch2 with
    | .error e2 => .uncaught e2
    | .ok raw =>
      let logs2 := if silent then logs1 else logs1 ++ [format_cluster_status raw]
      match loads (extractJson raw) with
      | some v => .applied logs2 (some v)
      | none =>
        .applied (logs2 ++ if silent then [] else ["[ERROR] JSON parse failed: " ++ jsonErrMsg])
          none

/-- Per-node display card built by `_apply_cluster_status`: address, LED
`(image file, blinking)`, and the info label text. -/
structure NodeCard where
  addr : String
  led : String × Bool
  info : String
deriving DecidableEq

/-- Presentation state touched by the refresh pipeline: summary label text,
overall status LED `(image file, blinking)`, and the node display cards. -/
structure GuiState where
  summary : String
  statusLed : String × Bool
  nodes : List NodeCard
deriving DecidableEq

/-- Build one node card (loop body of `_apply_cluster_status`,
ClusterDuck.py:676-727).  Dynamic failures (`AttributeError`/`TypeError`
on unexpected shapes) propagate as `Except.error`. -/
def buildNodeCard (addr : String) (node : Json) : Except String NodeCard := do
  let roleJ ← jget node "memberRole" (.str "")
  let roleS ← asStr roleJ
  let is_primary := pyUpper roleS == "PRIMARY"
  let statusJ ← jget node "status" (.str "")
  let statusS ← asStr statusJ
  let color := get_led_color statusS roleS
  let led := if is_primary then ("blueLED.png", true) else (color ++ "LED.png", false)
  let roleQ ← jget node "memberRole" (.str "?")
  let modeQ ← jget node "mode" (.str "?")
  let statusQ ← jget node "status" (.str "?")
  let lagQ ← jget node "replicationLag" (.str "?")
  let verQ ← jget node "version" (.str "?")
  let info0 :=
    "Role: " ++ pyStr roleQ ++ "  Mode: " ++ pyStr modeQ ++ "  Status: " ++ pyStr statusQ ++
      "\nLag: " ++ pyStr lagQ ++ "  Ver: " ++ pyStr verQ
  let sce ← jget node "shellConnectError" .null
  let info1 := if pyTruthy sce then info0 ++ "\nErr: " ++ pyStr sce else info0
  let ie ← jget node "instanceErrors" .null
  let info2 ←
    if pyTruthy ie then do
      let ws ← pyIter ie
      pure (ws.foldl (fun acc w => acc ++ "\nWarn: " ++ pyStr w) info1)
    else pure info1
  pure ⟨addr, led, info2⟩

/-- `ClusterGUI._apply_cluster_status` (ClusterDuck.py:650-727).  A falsy
`obj` (`None` or an empty dict) takes the error branch, which changes only
the summary and the overall LED; a truthy dict replaces the summary and
rebuilds the node cards wholesale. -/
def apply_cluster_status (st : GuiState) (obj : Option Json) :
    Except String GuiState :=
  match obj with
  | none => .ok ⟨"Cluster: N/A   Status: error", ("redLED.png", false), st.nodes⟩
  | some j =>
    if pyTruthy j = false then
      .ok ⟨"Cluster: N/A   Status: error", ("redLED.png", false), st.nodes⟩
    else do
      let rep ← jget j "defaultReplicaSet" (.obj [])
      let cname ← jget j "clusterName" (.str "N/A")
      let tmode ← jget rep "topologyMode" (.str "N/A")
      let stext ← jget rep "statusText" (.str "N/A")
      let summary :=
        "Cluster: " ++ pyStr cname ++ "  |  Mode: " ++ pyStr tmode ++
          "  |  Status: " ++ pyStr stext
      let topo ← jget rep "topology" (.obj [])
      let topoKvs ← asObj topo
      let cards ← topoKvs.mapM (fun p => buildNodeCard p.1 p.2)
      .ok ⟨summary, ("greenLED.png", false), cards⟩

/-- One full refresh applied to the presentation state: run
`_load_cluster_status` and, when it hands an object to
`_apply_cluster_status`, apply it.  Returns the new state and the log
lines, or the escaped exception. -/
def refresh_step (st : GuiState) (fetch1 fetch2 : Except String String)
    (silent : Bool) : Except String (GuiState × List String) :=
  match load_cluster_status fetch1 fetch2 silent with
  | .handledError logs summary led => .ok (⟨summary, led, st.nodes⟩, logs)
  | .applied logs obj =>
    match apply_cluster_status st obj with
    | .ok st2 => .ok (st2, logs)
    | .error e => .error e
  | .uncaught e => .error e

/-! ## The LED animator (`LEDManager`, ClusterDuck.py:78-160) -/

/-- Look up a key in an association list. -/
def alup {α : Type} : List (String × α) → String → Option α
  | [], _ => none
  | p :: t, k => if p.1 = k then some p.2 else alup t k

/-- Remove all bindings of a key (Python `dict.pop`). -/
def adel {α : Type} : List (String × α) → String → List (String × α)
  | [], _ => []
  | p :: t, k => if p.1 = k then adel t k else p :: adel t k

/-- Set a binding (Python `dict.__setitem__`). -/
def aset {α : Type} (l : List (String × α)) (k : String) (v : α) :
    List (String × α) :=
  (k, v) :: adel l k

/-- Remove the timer with the given id (`root.after_cancel`). -/
def tdel : List (Nat × String) → Nat → List (Nat × String)
  | [], _ => []
  | p :: t, i => if p.1 = i then tdel t i else p :: tdel t i

/-- Find the widget owning a pending timer id. -/
def tfind : List (Nat × String) → Nat → Option String
  | [], _ => none
  | p :: t, i => if p.1 = i then some p.2 else tfind t i

/-- Remove all occurrences of a widget from the liveness list. -/
def ldel : List String → String → List String
  | [], _ => []
  | x :: t, w => if x = w then ldel t w else x :: ldel t w

/-- Number of pending timers owned by a widget. -/
def tcount : List (Nat × String) → String → Nat
  | [], _ => 0
  | p :: t, w => (if p.2 = w then 1 else 0) + tcount t w

/-- `LEDManager` state: live widgets, `_blink_jobs` (widget → after-id),
`_blink_state`, the pending `after` timers `(id, widget)`, and the next
fresh timer id. -/
structure LedState where
  alive : List String
  jobs : List (String × Nat)
  blink : List (String × Bool)
  timers : List (Nat × String)
  next : Nat
deriving DecidableEq

/-- Events acting on a `LEDManager`: widget creation/destruction, the three
public operations, and the Tk scheduler firing a pending timer. -/
inductive LedOp where
  | createW (w : String) : LedOp
  | destroyW (w : String) : LedOp
  | setW (w : String) (filename : String) (blink : Bool) : LedOp
  | blinkBetweenW (w : String) (fileA fileB : String) (interval : Nat) : LedOp
  | stopW (w : String) : LedOp
  | fireT (id : Nat) : LedOp

/-- `LEDManager.stop` (ClusterDuck.py:156-160): pop the widget's after-id,
cancel that timer if present, pop the blink state. -/
def stopLed (s : LedState) (w : String) : LedState :=
  match alup s.jobs w with
  | some i => ⟨s.alive, adel s.jobs w, adel s.blink w, tdel s.timers i, s.next⟩
  | none => ⟨s.alive, adel s.jobs w, adel s.blink w, s.timers, s.next⟩

/-- The `_step` closure body shared by `set(blink=True)`, `blink_between`
and every timer tick: return silently if the widget no longer exists,
otherwise toggle the blink state (a `KeyError` if the state was popped),
reconfigure the widget (a `TclError` if it were destroyed — unreachable
behind the liveness guard), and schedule the next tick. -/
def ledStep (s : LedState) (w : String) : Except String LedState :=
  if w ∈ s.alive then
    match alup s.blink w with
    | none => .error "KeyError: _blink_state"
    | some b =>
      .ok ⟨s.alive, aset s.jobs w s.next, aset s.blink w (!b),
        (s.next, w) :: s.timers, s.next + 1⟩
  else .ok s

/-- One `LEDManager` event step. `set` and `blink_between` first call
`stop`, then (for a blinking display) seed `_blink_state[w] := False` and
run `_step` once; a static `set` only reconfigures the widget (its
`try`/`except` swallows any error).  A fired timer is first removed from
the pending set, then its `_step` body runs. -/
def execLed (s : LedState) : LedOp → Except String LedState
  | .createW w =>
    .ok ⟨if w ∈ s.alive then s.alive else w :: s.alive, s.jobs, s.blink, s.timers, s.next⟩
  | .destroyW w => .ok ⟨ldel s.alive w, s.jobs, s.blink, s.timers, s.next⟩
  | .setW w _ blink =>
    let s1 := stopLed s w
    if blink then
      ledStep ⟨s1.alive, s1.jobs, aset s1.blink w false, s1.timers, s1.next⟩ w
    else .ok s1
  | .blinkBetweenW w _ _ _ =>
    let s1 := stopLed s w
    ledStep ⟨s1.alive, s1.jobs, aset s1.blink w false, s1.timers, s1.next⟩ w
  | .stopW w => .ok (stopLed s w)
  | .fireT i =>
    match tfind s.timers i with
    | none => .ok s
    | some w => ledStep ⟨s.alive, s.jobs, s.blink, tdel s.timers i, s.next⟩ w

/-- Run a sequence of events from a state. -/
def runLed (s : LedState) : List LedOp → Except String LedState
  | [] => .ok s
  | op :: ops =>
    match execLed s op with
    | .ok s2 => runLed s2 ops
    | .error e => .error e

/-- The initial `LEDManager` state. -/
def ledInit : LedState := ⟨[], [], [], [], 0⟩

/-- A sample presentation state with one node card, used to witness the
frame theorems on concrete data. -/
def sampleGui : GuiState :=
  ⟨"Cluster: c1  |  Mode: SINGLE-PRIMARY  |  Status: OK", ("greenLED.png", false),
    [⟨"n1:3306", ("blueLED.png", true), "Role: PRIMARY"⟩]⟩

/-- The timer-bookkeeping invariant of a `LEDManager` state: every pending
timer is the one recorded in `_blink_jobs` for its widget, recorded ids are
below the fresh-id counter, every pending timer's widget still has a blink
state, and pending timer ids are distinct. -/
def LedInv (s : LedState) : Prop :=
  (∀ j u, (j, u) ∈ s.timers → alup s.jobs u = some j) ∧
  (∀ u j, alup s.jobs u = some j → j < s.next) ∧
  (∀ j u, (j, u) ∈ s.timers → alup s.blink u ≠ none) ∧
  (s.timers.map Prod.fst).Nodup

/-! # Theorems -/

/-! ## C1 — the status resolver -/

/-- Claim C1: `get_led_color` is a pure total function that, case-insensitively
on `rawState`, returns green exactly for "ONLINE", yellow exactly for
"RECOVERING"/"RECOVERY"/"JOINING", and red for everything else; the `role`
argument never affects the result. -/
theorem get_led_color_spec (s r : String) :
    (get_led_color s r = "green" ↔ pyUpper s = "ONLINE") ∧
    (get_led_color s r = "yellow" ↔
      (pyUpper s = "RECOVERING" ∨ pyUpper s = "RECOVERY" ∨ pyUpper s = "JOINING")) ∧
    (get_led_color s r = "red" ↔
      ¬(pyUpper s = "ONLINE" ∨ pyUpper s = "RECOVERING" ∨ pyUpper s = "RECOVERY" ∨
        pyUpper s = "JOINING")) ∧
    (∀ r2 : String, get_led_color s r = get_led_color s r2) := by
  unfold get_led_color
  by_cases h1 : pyUpper s = "ONLINE" <;>
    by_cases h2 : pyUpper s = "RECOVERING" <;>
    by_cases h3 : pyUpper s = "RECOVERY" <;>
    by_cases h4 : pyUpper s = "JOINING" <;>
    simp_all

/-! ## C2 — dangerous-command confirmation -/

/-- Claim C2 (code bug): the catalog command "Set Read-Write Mode" has
`risk = "danger"` but no `danger` description field, and `_run_command`
gates the confirmation dialog on the presence of the `danger` key — so this
command is dispatched with no confirmation asked and the SQL submitted to
the executor even though the operator (here answering no) was never given a
chance to decline. -/
theorem setReadWrite_dispatched_without_confirmation :
    setReadWriteCmd ∈ CLUSTER_COMMANDS ∧
    setReadWriteCmd.risk = "danger" ∧
    setReadWriteCmd.danger = none ∧
    run_command setReadWriteCmd "" "root" "pw" false =
      ⟨["[Set Read-Write Mode]\nSET GLOBAL super_read_only=OFF; SET GLOBAL read_only=OFF;"],
        false, true,
        some ("SQL", "SET GLOBAL super_read_only=OFF; SET GLOBAL read_only=OFF;"), none⟩ := by
  refine ⟨by decide, rfl, rfl, by decide⟩

/-! ## C3 — shell failures inside a refresh -/

/-- Claim C3 (code bug): only the first `get_cluster_status` call of
`_load_cluster_status` sits inside the `try`/`except`.  A failure of the
first fetch is caught and converted (ERROR log line, unavailable summary,
red LED); the same failure in the second fetch escapes the method uncaught,
with no log line and no indicator change. -/
theorem load_cluster_status_second_fetch_uncaught :
    load_cluster_status (Except.error "boom") (Except.ok "\x7b\x7d") false =
      LoadOutcome.handledError ["[ERROR] boom"]
        "Cluster: N/A  |  Status: connection error" ("redLED.png", false) ∧
    load_cluster_status (Except.ok "\x7b\x7d") (Except.error "boom") false =
      LoadOutcome.uncaught "boom" :=
  ⟨rfl, rfl⟩

/-! ## C6 — placeholder substitution -/

/-- Counterexample to claim C6: substitution is four sequential
`str.replace` calls, so a replacement value that itself contains a
placeholder token is rewritten by a later replace.  With template
`"<node>"`, node `"<user>"`, user `"root"`, the code produces `"root"`,
while substitution using the original unsubstituted values (the spec-side
scanner) produces `"<user>"`. -/
theorem fill_nested_substitution_cex :
    fill "<node>" "<user>" "root" "pw" = "root" ∧
    fillSpecModel "<node>" "<user>" "root" "pw" = "<user>" ∧
    fill "<node>" "<user>" "root" "pw" ≠ fillSpecModel "<node>" "<user>" "root" "pw" :=
  ⟨rfl, rfl, by decide⟩

/-- Claim C6 as amended: substitution replaces `<node>`, `<user>`, `<pass>`
(secret's single quotes escaped) and `<user>@<node>` by sequential
`str.replace` calls in that order; on the claim's example — where no
replacement value contains a placeholder token — the filled command equals
`add('root@10.0.0.5',{x:1})`, agreeing with substitution using the original
unsubstituted values. -/
theorem fill_example_amended :
    fill "add(\x27<user>@<node>\x27,\x7bx:1\x7d)" "10.0.0.5" "root" "pw" =
      "add(\x27root@10.0.0.5\x27,\x7bx:1\x7d)" ∧
    fillSpecModel "add(\x27<user>@<node>\x27,\x7bx:1\x7d)" "10.0.0.5" "root" "pw" =
      fill "add(\x27<user>@<node>\x27,\x7bx:1\x7d)" "10.0.0.5" "root" "pw" :=
  ⟨rfl, rfl⟩

/-! ## C7 — node-selection validation -/

/-- Claim C7: dispatching any catalog command whose template contains
`<node>` while no node is selected logs "Select a node first!" and stops:
no confirmation dialog, no LED change, no executor submission, no follow-up
refresh. -/
theorem node_validation_blocks_dispatch (cmd : CmdSpec)
    (hmem : cmd ∈ CLUSTER_COMMANDS)
    (hnode : pyContains cmd.template "<node>" = true)
    (user pw : String) (confirm : Bool) :
    run_command cmd "" user pw confirm =
      ⟨["[ERROR] Select a node first!"], false, false, none, none⟩ := by
  unfold run_command
  simp [hnode]

/-- Witness for C7 at the concrete catalog command "Rejoin Instance". -/
theorem node_validation_blocks_dispatch_w :
    run_command rejoinInstanceCmd "" "root" "pw" true =
      ⟨["[ERROR] Select a node first!"], false, false, none, none⟩ :=
  node_validation_blocks_dispatch rejoinInstanceCmd (by decide) (by decide) "root" "pw" true

/-! ## C8 — failed refreshes preserve the node display state -/

/-- Claim C8: a failed refresh never touches the node cards.  Part 1: when
the parsed object is falsy, `_apply_cluster_status` changes only the
summary and the overall LED, leaving the node list exactly as published by
the last successful refresh.  Part 2: a shell failure caught by
`_load_cluster_status` likewise only rewrites the summary and LED. -/
theorem failed_refresh_preserves_nodes :
    (∀ (st : GuiState) (obj : Option Json), pyTruthyOpt obj = false →
      ∃ st2, apply_cluster_status st obj = .ok st2 ∧ st2.nodes = st.nodes ∧
        st2.summary = "Cluster: N/A   Status: error" ∧
        st2.statusLed = ("redLED.png", false)) ∧
    (∀ (st : GuiState) (e : String) (fetch2 : Except String String) (silent : Bool),
      ∃ st2 logs, refresh_step st (.error e) fetch2 silent = .ok (st2, logs) ∧
        st2.nodes = st.nodes ∧
        st2.summary = "Cluster: N/A  |  Status: connection error" ∧
        st2.statusLed = ("redLED.png", false)) := by
  constructor
  · intro st obj h
    match obj with
    | none => exact ⟨_, rfl, rfl, rfl, rfl⟩
    | some j =>
      have hj : pyTruthy j = false := by simpa [pyTruthyOpt] using h
      exact ⟨⟨"Cluster: N/A   Status: error", ("redLED.png", false), st.nodes⟩,
        by simp [apply_cluster_status, hj], rfl, rfl, rfl⟩
  · intro st e fetch2 silent
    exact ⟨_, _, rfl, rfl, rfl, rfl⟩

/-- Witness for C8 on concrete data: applying a falsy refresh result to a
state holding one node card keeps that card untouched. -/
theorem failed_refresh_preserves_nodes_w :
    ∃ st2, apply_cluster_status sampleGui none = .ok st2 ∧
      st2.nodes = [⟨"n1:3306", ("blueLED.png", true), "Role: PRIMARY"⟩] := by
  obtain ⟨st2, h1, h2, -, -⟩ :=
    failed_refresh_preserves_nodes.1 sampleGui none rfl
  exact ⟨st2, h1, h2⟩

/-! ## C10 — the empty parsed object is treated as a failed refresh -/

/-- Claim C10: when the shell output parses to the empty JSON object, the
pipeline hands `\x7b\x7d` to `_apply_cluster_status`, which treats any falsy
object — `None` or the empty dict alike — as a failed refresh: red
indicator, "Cluster: N/A" summary, node cards untouched. -/
theorem empty_object_is_unavailable (st : GuiState) :
    (∀ silent, ∃ logs, load_cluster_status (Except.ok "\x7b\x7d") (Except.ok "\x7b\x7d") silent =
      LoadOutcome.applied logs (some (Json.obj []))) ∧
    pyTruthy (Json.obj []) = false ∧
    pyTruthyOpt (some (Json.obj [])) = pyTruthyOpt none ∧
    apply_cluster_status st (some (Json.obj [])) =
      .ok ⟨"Cluster: N/A   Status: error", ("redLED.png", false), st.nodes⟩ := by
  refine ⟨?_, rfl, rfl, rfl⟩
  intro silent
  cases silent
  · exact ⟨_, rfl⟩
  · exact ⟨_, rfl⟩

/-! ## Helper lemmas: slices and parse-result head shapes -/

theorem str_length_toList (s : String) : s.length = s.toList.length := rfl

theorem toList_mk (l : List Char) : (String.mk l).toList = l := rfl

theorem pySliceIdx_of_le {n : Nat} {i : Nat} (h : i ≤ n) :
    pySliceIdx n (i : Int) = i := by
  simp only [pySliceIdx]
  omega

theorem pySliceIdx_neg_one (n : Nat) : pySliceIdx n (-1) = n - 1 := by
  simp only [pySliceIdx]
  omega

theorem pySliceFrom_toList (s : String) (a : Int) :
    (pySliceFrom s a).toList = s.toList.drop (pySliceIdx s.toList.length a) := by
  unfold pySliceFrom pySlice
  rw [toList_mk]
  have h : pySliceIdx s.toList.length ((s.length : Nat) : Int) = s.toList.length := by
    rw [str_length_toList]
    exact pySliceIdx_of_le (le_refl _)
  rw [h, List.take_length]

theorem skipWs_cons_of_not {c : Char} {cs : List Char} (h : isJsonWs c = false) :
    skipWs (c :: cs) = c :: cs := by
  simp [skipWs, List.dropWhile_cons, h]

/-- A successful `parseVal` returning a string datum can only come from the
string branch: the first non-whitespace character of the input is `"`. -/
theorem parseVal_str_result : ∀ {fuel : Nat} {cs rest : List Char} {t : String},
    parseVal fuel cs = some (Json.str t, rest) → ∃ r, skipWs cs = '"' :: r := by
  intro fuel
  match fuel with
  | 0 => intro cs rest t h; simp [parseVal] at h
  | fuel + 1 =>
    intro cs rest t h
    rw [parseVal] at h
    rcases hws : skipWs cs with _ | ⟨c, cr⟩
    · rw [hws] at h; cases h
    · rw [hws] at h
      dsimp only at h
      by_cases h1 : c = '{'
      · rw [if_pos h1] at h
        split at h <;> simp_all
      rw [if_neg h1] at h
      by_cases h2 : c = '['
      · rw [if_pos h2] at h
        split at h <;> simp_all
      rw [if_neg h2] at h
      by_cases h3 : c = '"'
      · subst h3; exact ⟨cr, rfl⟩
      rw [if_neg h3] at h
      by_cases h4 : c = 't'
      · rw [if_pos h4] at h; split at h <;> simp_all
      rw [if_neg h4] at h
      by_cases h5 : c = 'f'
      · rw [if_pos h5] at h; split at h <;> simp_all
      rw [if_neg h5] at h
      by_cases h6 : c = 'n'
      · rw [if_pos h6] at h; split at h <;> simp_all
      rw [if_neg h6] at h
      by_cases h7 : (c.isDigit || decide (c = '-')) = true
      · rw [if_pos h7] at h
        rcases hn : parseNum (c :: cr) with _ | ⟨n, r⟩ <;> simp [hn] at h
      · rw [if_neg h7] at h; cases h

/-- A successful `loads` returning a string datum means the document's
first non-whitespace character is `"`. -/
theorem loads_str_head {s t : String} (h : loads s = some (Json.str t)) :
    ∃ r, skipWs s.toList = '"' :: r := by
  unfold loads at h
  rcases hp : parseVal (s.length + 1) s.toList with _ | ⟨v, rest⟩
  · rw [hp] at h; cases h
  · rw [hp] at h
    dsimp only at h
    by_cases hw : skipWs rest = []
    · rw [if_pos hw] at h
      injection h with h
      subst h
      exact parseVal_str_result hp
    · rw [if_neg hw] at h; cases h

/-- The `try` block of `_exec_command` never succeeds: it applies
`format_cluster_status` to the value returned by `json.loads`, which at
these inputs is never a Python `str`, so the `AttributeError` always sends
control to the `except` branch and the refresh lines are dead code. -/
theorem exec_sched_none (title out : String) :
    (exec_command title out).sched = none := by
  unfold exec_command
  by_cases ht : title = "Check Cluster Status"
  · rw [if_pos ht]
    rcases hl : loads (pySliceFrom out (pyFindChar out '{')) with _ | v
    · simp [hl]
    · rcases v with _ | b | n | tstr | xs | kvs
      · simp [hl, format_cluster_status_v]
      · simp [hl, format_cluster_status_v]
      · simp [hl, format_cluster_status_v]
      · -- the impossible string case
        exfalso
        obtain ⟨r, hr⟩ := loads_str_head hl
        rw [pySliceFrom_toList] at hr
        rcases hf : out.toList.findIdx? (fun c => c = '{') with _ | i
        · -- no brace: the slice is empty or the single last character
          have hneg : pyFindChar out '{' = -1 := by
            unfold pyFindChar
            rw [hf]
          rw [hneg, pySliceIdx_neg_one] at hr
          rcases hn : out.toList.length with _ | m
          · have hcs : out.toList = [] := List.length_eq_zero.mp hn
            rw [hcs] at hr
            simp [skipWs] at hr
          · have hm : m < out.toList.length := by omega
            have hlen1 : out.toList.length - 1 = m := by omega
            have hdrop : out.toList.drop (out.toList.length - 1) =
                [out.toList[m]] := by
              rw [hlen1, List.drop_eq_getElem_cons hm]
              have h2 : out.toList.drop (m + 1) = [] :=
                List.drop_eq_nil_of_le (by omega)
              rw [h2]
            rw [hdrop] at hr
            by_cases hwsc : isJsonWs (out.toList[m]) = true
            · have hwsc2 : isJsonWs (out.data[m]) = true := hwsc
              simp [skipWs, List.dropWhile_cons, hwsc2] at hr
            · rw [skipWs_cons_of_not (by simpa using hwsc)] at hr
              have hq : out.toList[m] = '"' := by
                injection hr with h1 h2
              -- the slice is the one-character string `"` and fails to load
              have hsub : pySliceFrom out (pyFindChar out '{') = String.mk ['"'] := by
                have hlist : (pySliceFrom out (pyFindChar out '{')).toList = ['"'] := by
                  rw [pySliceFrom_toList, hneg, pySliceIdx_neg_one, hdrop, hq]
                rcases hs : pySliceFrom out (pyFindChar out '{') with ⟨data⟩
                rw [hs] at hlist
                rw [show (String.mk data).toList = data from rfl] at hlist
                rw [hlist]
              rw [hsub] at hl
              exact Option.noConfusion
                (show (none : Option Json) = some (Json.str tstr) from hl)
        · -- a brace exists: the slice starts with `{`, not `"`
          have hpos : pyFindChar out '{' = (i : Int) := by
            unfold pyFindChar
            rw [hf]
          obtain ⟨hlt, hp, -⟩ := List.findIdx?_eq_some_iff_getElem.1 hf
          have hbr : out.toList[i] = '{' := by simpa using hp
          rw [hpos, pySliceIdx_of_le (le_of_lt hlt)] at hr
          rw [List.drop_eq_getElem_cons hlt, hbr,
            skipWs_cons_of_not (by simp [isJsonWs])] at hr
          injection hr with h1 h2
          exact absurd h1.symm (by decide)
      · simp [hl, format_cluster_status_v]
      · simp [hl, format_cluster_status_v]
  · rw [if_neg ht]

/-! ## Helper lemmas: whitespace handling in the parser -/

theorem mem_spaces_ws {c : Char} {n : Nat} (h : c ∈ spaces n) : isJsonWs c = true := by
  have : c = ' ' := List.eq_of_mem_replicate h
  subst this
  rfl

theorem skipWs_append_ws {pre : List Char} (h : ∀ c ∈ pre, isJsonWs c = true)
    (cs : List Char) : skipWs (pre ++ cs) = skipWs cs := by
  induction pre with
  | nil => rfl
  | cons c t ih =>
    have hc : isJsonWs c = true := h c (by simp)
    simp only [List.cons_append, skipWs, List.dropWhile_cons, hc, if_true]
    exact ih (fun d hd => h d (by simp [hd]))

theorem skipWs_spaces (n : Nat) (cs : List Char) :
    skipWs (spaces n ++ cs) = skipWs cs :=
  skipWs_append_ws (fun c hc => mem_spaces_ws hc) cs

theorem skipWs_newline (cs : List Char) : skipWs ('\n' :: cs) = skipWs cs := by
  simp only [skipWs, List.dropWhile_cons]
  rfl

/-- `parseVal` reads its input only through `skipWs`. -/
theorem parseVal_congr {fuel : Nat} {x y : List Char} (h : skipWs x = skipWs y) :
    parseVal fuel x = parseVal fuel y := by
  match fuel with
  | 0 => rfl
  | fuel + 1 => rw [parseVal, parseVal, h]

/-- `parsePairs` reads its input only through `skipWs`. -/
theorem parsePairs_congr {fuel : Nat} {x y : List Char} (h : skipWs x = skipWs y) :
    parsePairs fuel x = parsePairs fuel y := by
  match fuel with
  | 0 => rfl
  | fuel + 1 => rw [parsePairs, parsePairs, h]

/-- `parseItems` reads its input only through `parseVal`. -/
theorem parseItems_congr {fuel : Nat} {x y : List Char} (h : skipWs x = skipWs y) :
    parseItems fuel x = parseItems fuel y := by
  match fuel with
  | 0 => rfl
  | fuel + 1 => rw [parseItems, parseItems, parseVal_congr h]

/-! ## Helper lemmas: decimal digits round-trip -/

theorem char_eq_of_toNat {a b : Char} (h : a.toNat = b.toNat) : a = b := by
  rw [← Char.ofNat_toNat a, ← Char.ofNat_toNat b, h]

theorem charOfNat_toNat {m : Nat} (h : m < 55296) : (Char.ofNat m).toNat = m := by
  have hv : Nat.isValidChar m := Or.inl h
  rw [show Char.ofNat m = Char.ofNatAux m hv from dif_pos hv]
  rfl

theorem digitChar_toNat {n : Nat} (h : n < 10) : (digitChar n).toNat = 48 + n :=
  charOfNat_toNat (by omega)

theorem isDigit_iff_toNat {c : Char} : c.isDigit = true ↔ 48 ≤ c.toNat ∧ c.toNat ≤ 57 := by
  constructor
  · intro h
    simpa [Char.isDigit] using h
  · intro h
    simp [Char.isDigit]
    exact h

theorem digitChar_isDigit {n : Nat} (h : n < 10) : (digitChar n).isDigit = true :=
  isDigit_iff_toNat.mpr (by rw [digitChar_toNat h]; omega)

/-- A decimal digit character is not whitespace and is none of the literal
characters the parser dispatches on. -/
theorem digit_class {c : Char} (h : c.isDigit = true) :
    isJsonWs c = false ∧ c ≠ '{' ∧ c ≠ '[' ∧ c ≠ '"' ∧ c ≠ 't' ∧ c ≠ 'f' ∧
    c ≠ 'n' ∧ c ≠ ']' ∧ c ≠ '}' ∧ c ≠ ',' ∧ c ≠ ':' ∧ c ≠ '-' := by
  have hb : 48 ≤ c.toNat ∧ c.toNat ≤ 57 := isDigit_iff_toNat.mp h
  refine ⟨?_, ?_, ?_, ?_, ?_, ?_, ?_, ?_, ?_, ?_, ?_, ?_⟩
  · by_contra hx
    have hx2 : isJsonWs c = true := by revert hx; cases isJsonWs c <;> simp
    rcases (by simpa [isJsonWs] using hx2 : ((c = ' ' ∨ c = '\t') ∨ c = '\n') ∨ c = '\r') with
      ((h2 | h2) | h2) | h2 <;> (subst h2; exact absurd hb (by decide))
  all_goals intro h2; subst h2; exact absurd hb (by decide)

theorem natSerF_ne_nil {fuel n : Nat} (h : n < fuel) : natSerF fuel n ≠ [] := by
  match fuel with
  | 0 => omega
  | fuel + 1 =>
    rw [natSerF]
    by_cases h10 : n < 10
    · simp [h10]
    · simp [h10]

theorem natSerF_all_digits {fuel n : Nat} (h : n < fuel) :
    ∀ c ∈ natSerF fuel n, c.isDigit = true := by
  match fuel with
  | 0 => omega
  | fuel + 1 =>
    rw [natSerF]
    by_cases h10 : n < 10
    · simp only [h10, if_true]
      intro c hc
      rw [List.mem_singleton.mp hc]
      exact digitChar_isDigit h10
    · simp only [h10, if_false]
      intro c hc
      rcases List.mem_append.mp hc with hc2 | hc2
      · have hlt : n / 10 < fuel := by
          have := Nat.div_lt_self (show 0 < n by omega) (show 1 < 10 by omega)
          omega
        exact natSerF_all_digits hlt c hc2
      · rw [List.mem_singleton.mp hc2]
        exact digitChar_isDigit (Nat.mod_lt n (by omega))

/-- The digit-accumulating fold of the parser inverts `natSerF`. -/
theorem natSerF_foldl {fuel : Nat} : ∀ {n : Nat}, n < fuel → ∀ a : Nat,
    (natSerF fuel n).foldl (fun acc c => acc * 10 + (c.toNat - 48)) a =
      a * 10 ^ (natSerF fuel n).length + n := by
  induction fuel with
  | zero => omega
  | succ fuel ih =>
    intro n h a
    rw [natSerF]
    by_cases h10 : n < 10
    · simp only [h10, if_true, List.foldl_cons, List.foldl_nil, List.length_singleton]
      rw [digitChar_toNat h10]
      omega
    · simp only [h10, if_false, List.foldl_append, List.length_append]
      have hlt : n / 10 < fuel := by
        have := Nat.div_lt_self (show 0 < n by omega) (show 1 < 10 by omega)
        omega
      rw [ih hlt a]
      simp only [List.foldl_cons, List.foldl_nil, List.length_singleton]
      rw [digitChar_toNat (Nat.mod_lt n (by omega)), pow_succ, ← mul_assoc]
      generalize a * 10 ^ (natSerF fuel (n / 10)).length = Q
      omega

/-! ## Helper lemmas: string-escape round trip -/

theorem hexVal_hexChar : ∀ m : Nat, m < 16 → hexVal (hexChar m) = some m := by decide

theorem consRes_some {c : Char} {o : Option (List Char × List Char)} {s r : List Char}
    (h : o = some (s, r)) : consRes c o = some (c :: s, r) := by
  rw [h]; rfl

theorem readStrF_raw_step {f : Nat} {c : Char} {X : List Char}
    (h1 : ¬c = '"') (h2 : ¬c = '\\') (h8 : ¬c.toNat < 32) :
    readStrF (f + 1) (c :: X) = consRes c (readStrF f X) := by
  rw [readStrF.eq_def]
  dsimp only
  rw [if_neg h1, if_neg h2, if_neg h8]

/-- `readStrF` decodes an escaped string body back to the original
characters, given fuel at least the input length. -/
theorem readStrF_esc : ∀ (s : List Char) (fuel : Nat) (rest : List Char),
    (escStr s ++ '"' :: rest).length ≤ fuel →
    readStrF fuel (escStr s ++ '"' :: rest) = some (s, rest) := by
  intro s
  induction s with
  | nil =>
    intro fuel rest hf
    rcases fuel with _ | f
    · exfalso; simp [escStr] at hf
    · rfl
  | cons c t ih =>
    intro fuel rest hf
    rw [show escStr (c :: t) = escChar c ++ escStr t from rfl, List.append_assoc] at hf ⊢
    by_cases h1 : c = '"'
    · subst h1
      rw [show escChar '"' = ['\\', '"'] from rfl] at hf ⊢
      rcases fuel with _ | f
      · exfalso; simp at hf
      · simp only [List.cons_append, List.nil_append]
        rw [show readStrF (f + 1) ('\\' :: '"' :: (escStr t ++ '"' :: rest)) =
            consRes '"' (readStrF f (escStr t ++ '"' :: rest)) from rfl]
        exact consRes_some (ih f rest (by simp at hf ⊢; omega))
    by_cases h2 : c = '\\'
    · subst h2
      rw [show escChar '\\' = ['\\', '\\'] from rfl] at hf ⊢
      rcases fuel with _ | f
      · exfalso; simp at hf
      · simp only [List.cons_append, List.nil_append]
        rw [show readStrF (f + 1) ('\\' :: '\\' :: (escStr t ++ '"' :: rest)) =
            consRes '\\' (readStrF f (escStr t ++ '"' :: rest)) from rfl]
        exact consRes_some (ih f rest (by simp at hf ⊢; omega))
    by_cases h3 : c = '\n'
    · subst h3
      rw [show escChar '\n' = ['\\', 'n'] from rfl] at hf ⊢
      rcases fuel with _ | f
      · exfalso; simp at hf
      · simp only [List.cons_append, List.nil_append]
        rw [show readStrF (f + 1) ('\\' :: 'n' :: (escStr t ++ '"' :: rest)) =
            consRes '\n' (readStrF f (escStr t ++ '"' :: rest)) from rfl]
        exact consRes_some (ih f rest (by simp at hf ⊢; omega))
    by_cases h4 : c = '\t'
    · subst h4
      rw [show escChar '\t' = ['\\', 't'] from rfl] at hf ⊢
      rcases fuel with _ | f
      · exfalso; simp at hf
      · simp only [List.cons_append, List.nil_append]
        rw [show readStrF (f + 1) ('\\' :: 't' :: (escStr t ++ '"' :: rest)) =
            consRes '\t' (readStrF f (escStr t ++ '"' :: rest)) from rfl]
        exact consRes_some (ih f rest (by simp at hf ⊢; omega))
    by_cases h5 : c = '\r'
    · subst h5
      rw [show escChar '\r' = ['\\', 'r'] from rfl] at hf ⊢
      rcases fuel with _ | f
      · exfalso; simp at hf
      · simp only [List.cons_append, List.nil_append]
        rw [show readStrF (f + 1) ('\\' :: 'r' :: (escStr t ++ '"' :: rest)) =
            consRes '\r' (readStrF f (escStr t ++ '"' :: rest)) from rfl]
        exact consRes_some (ih f rest (by simp at hf ⊢; omega))
    by_cases h6 : c = '\x08'
    · subst h6
      rw [show escChar '\x08' = ['\\', 'b'] from rfl] at hf ⊢
      rcases fuel with _ | f
      · exfalso; simp at hf
      · simp only [List.cons_append, List.nil_append]
        rw [show readStrF (f + 1) ('\\' :: 'b' :: (escStr t ++ '"' :: rest)) =
            consRes '\x08' (readStrF f (escStr t ++ '"' :: rest)) from rfl]
        exact consRes_some (ih f rest (by simp at hf ⊢; omega))
    by_cases h7 : c = '\x0c'
    · subst h7
      rw [show escChar '\x0c' = ['\\', 'f'] from rfl] at hf ⊢
      rcases fuel with _ | f
      · exfalso; simp at hf
      · simp only [List.cons_append, List.nil_append]
        rw [show readStrF (f + 1) ('\\' :: 'f' :: (escStr t ++ '"' :: rest)) =
            consRes '\x0c' (readStrF f (escStr t ++ '"' :: rest)) from rfl]
        exact consRes_some (ih f rest (by simp at hf ⊢; omega))
    by_cases h8 : c.toNat < 32
    · have hesc : escChar c =
          ['\\', 'u', '0', '0', hexChar (c.toNat / 16), hexChar (c.toNat % 16)] := by
        simp only [escChar, if_neg h1, if_neg h2, if_neg h3, if_neg h4, if_neg h5,
          if_neg h6, if_neg h7, if_pos h8]
      rw [hesc] at hf ⊢
      rcases fuel with _ | f
      · exfalso; simp at hf
      · simp only [List.cons_append, List.nil_append]
        have hhex : readHex ('0' :: '0' :: hexChar (c.toNat / 16) ::
              hexChar (c.toNat % 16) :: (escStr t ++ '"' :: rest)) =
            some (c, escStr t ++ '"' :: rest) := by
          rw [show readHex ('0' :: '0' :: hexChar (c.toNat / 16) ::
                hexChar (c.toNat % 16) :: (escStr t ++ '"' :: rest)) =
              (match hexVal '0', hexVal '0', hexVal (hexChar (c.toNat / 16)),
                  hexVal (hexChar (c.toNat % 16)) with
                | some a, some b, some c3, some d =>
                  let n := ((a * 16 + b) * 16 + c3) * 16 + d
                  if n.isValidChar then some (Char.ofNat n, escStr t ++ '"' :: rest)
                  else none
                | _, _, _, _ => none) from rfl]
          rw [hexVal_hexChar _ (by omega), hexVal_hexChar _ (by omega),
            show hexVal '0' = some 0 from rfl]
          have hn : ((0 * 16 + 0) * 16 + c.toNat / 16) * 16 + c.toNat % 16 = c.toNat := by
            omega
          dsimp only
          rw [hn, if_pos (Or.inl (by omega : c.toNat < 0xD800)), Char.ofNat_toNat]
        rw [show readStrF (f + 1) ('\\' :: 'u' :: '0' :: '0' :: hexChar (c.toNat / 16) ::
              hexChar (c.toNat % 16) :: (escStr t ++ '"' :: rest)) =
            (match readHex ('0' :: '0' :: hexChar (c.toNat / 16) ::
                hexChar (c.toNat % 16) :: (escStr t ++ '"' :: rest)) with
              | some (ch, r3) => consRes ch (readStrF f r3)
              | none => none) from rfl]
        rw [hhex]
        exact consRes_some (ih f rest (by simp at hf ⊢; omega))
    · have hesc : escChar c = [c] := by
        simp only [escChar, if_neg h1, if_neg h2, if_neg h3, if_neg h4, if_neg h5,
          if_neg h6, if_neg h7, if_neg h8]
      rw [hesc] at hf ⊢
      rcases fuel with _ | f
      · exfalso; simp at hf
      · simp only [List.cons_append, List.nil_append]
        rw [readStrF_raw_step h1 h2 h8]
        exact consRes_some (ih f rest (by simp at hf ⊢; omega))

/-- `readStr` decodes an escaped string body back to the original string. -/
theorem readStr_esc (s rest : List Char) :
    readStr (escStr s ++ '"' :: rest) = some (s, rest) :=
  readStrF_esc s _ rest (le_refl _)

/-! ## Helper lemmas: number round trip -/

theorem takeWhile_append_boundary {p : Char → Bool} : ∀ {l r : List Char},
    (∀ c ∈ l, p c = true) → (r = [] ∨ ∃ c2 t2, r = c2 :: t2 ∧ p c2 = false) →
    (l ++ r).takeWhile p = l ∧ (l ++ r).dropWhile p = r := by
  intro l
  induction l with
  | nil =>
    intro r hall hr
    rcases hr with hr | ⟨c2, t2, hr, hpc⟩
    · subst hr; exact ⟨rfl, rfl⟩
    · subst hr
      exact ⟨by simp [List.takeWhile_cons, hpc], by simp [List.dropWhile_cons, hpc]⟩
  | cons a t ih =>
    intro r hall hr
    have hpa : p a = true := hall a (by simp)
    have ih2 := ih (fun c hc => hall c (by simp [hc])) hr
    exact ⟨by simp [List.takeWhile_cons, hpa, ih2.1],
      by simp [List.dropWhile_cons, hpa, ih2.2]⟩

theorem parseNum_natSer {n : Nat} {rest : List Char} (hr : goodTail rest) :
    parseNum (natSer n ++ rest) = some ((n : Int), rest) := by
  have hne : natSer n ≠ [] := natSerF_ne_nil (by omega)
  have hdig : ∀ d ∈ natSer n, d.isDigit = true := natSerF_all_digits (by omega)
  obtain ⟨c, t0, hct⟩ := List.exists_cons_of_ne_nil hne
  have hcd : c.isDigit = true := hdig c (by rw [hct]; simp)
  obtain ⟨-, -, -, -, -, -, -, -, -, -, -, hminus⟩ := digit_class hcd
  obtain ⟨htw, hdw⟩ := takeWhile_append_boundary hdig hr
  rw [hct] at htw hdw ⊢
  rw [List.cons_append]
  simp only [parseNum]
  rw [if_neg hminus, ← List.cons_append, htw, if_neg (hct ▸ hne), hdw,
    if_neg hminus]
  rw [← hct, show natSer n = natSerF (n + 1) n from rfl,
    natSerF_foldl (by omega) 0]
  simp

theorem parseNum_intSer {i : Int} {rest : List Char} (hr : goodTail rest) :
    parseNum (intSer i ++ rest) = some (i, rest) := by
  unfold intSer
  by_cases hneg : i < 0
  · rw [if_pos hneg, List.cons_append]
    have hne : natSer i.natAbs ≠ [] := natSerF_ne_nil (by omega)
    have hdig : ∀ d ∈ natSer i.natAbs, d.isDigit = true := natSerF_all_digits (by omega)
    obtain ⟨htw, hdw⟩ := takeWhile_append_boundary hdig hr
    simp only [parseNum, if_true]
    rw [htw, if_neg hne, hdw,
      show natSer i.natAbs = natSerF (i.natAbs + 1) i.natAbs from rfl,
      natSerF_foldl (by omega) 0]
    simp only [Nat.zero_mul, Nat.zero_add]
    have : -((i.natAbs : Nat) : Int) = i := by omega
    rw [this]
  · rw [if_neg hneg]
    have : ((i.natAbs : Nat) : Int) = i := by omega
    rw [parseNum_natSer hr, this]

/-! ## C5 — post-command follow-up refresh -/

/-- Counterexample to claim C5: the follow-up refresh scheduled after "Set
Primary Instance" is silent (`refresh_cluster(silent=True)` after 1000 ms),
not non-silent as claimed, and another leadership-changing command ("STOP
Group Replication") schedules no follow-up at all. -/
theorem primary_followup_silent_cex :
    refresh_after "Set Primary Instance" = some (1000, true) ∧
    refresh_after "Set Primary Instance" ≠ some (1000, false) ∧
    refresh_after "STOP Group Replication" = none :=
  ⟨rfl, by decide, rfl⟩

/-- Claim C5 as amended: only the "Set Primary Instance" command schedules
a follow-up refresh, after a fixed 1000 ms delay, and that follow-up is
silent; no other command schedules one, and the non-silent refresh branch
in `_exec_command` is unreachable (it sits inside the `try` block whose
`format_cluster_status` call always raises on the parsed, non-string
value). -/
theorem refresh_followup_amended :
    (∀ title : String, refresh_after title =
      if title = "Set Primary Instance" then some (1000, true) else none) ∧
    (∀ title out : String, (exec_command title out).sched = none) :=
  ⟨fun _ => rfl, exec_sched_none⟩

/-! ## Helper lemmas: serializer output shapes and sizes -/

theorem mk_toList (s : String) : String.mk s.toList = s := rfl

theorem skipWs_space (cs : List Char) : skipWs (' ' :: cs) = skipWs cs := by
  simp only [skipWs, List.dropWhile_cons]
  rfl

theorem goodTail_cons {c : Char} {t : List Char} (h : c.isDigit = false) :
    goodTail (c :: t) :=
  Or.inr ⟨c, t, rfl, h⟩

/-- The first character of any serialized value: never whitespace, never a
closing bracket or brace. -/
theorem serVal_head (ind : Nat) (v : Json) :
    ∃ c t, serVal ind v = c :: t ∧ isJsonWs c = false ∧ c ≠ ']' ∧ c ≠ '}' := by
  match v with
  | .null => exact ⟨'n', _, rfl, by decide, by decide, by decide⟩
  | .bool true => exact ⟨'t', _, rfl, by decide, by decide, by decide⟩
  | .bool false => exact ⟨'f', _, rfl, by decide, by decide, by decide⟩
  | .str s => exact ⟨'"', _, rfl, by decide, by decide, by decide⟩
  | .arr [] => exact ⟨'[', _, rfl, by decide, by decide, by decide⟩
  | .arr (x :: xs) => exact ⟨'[', _, rfl, by decide, by decide, by decide⟩
  | .obj [] => exact ⟨'{', _, rfl, by decide, by decide, by decide⟩
  | .obj (p :: ps) => exact ⟨'{', _, rfl, by decide, by decide, by decide⟩
  | .num i =>
    rw [show serVal ind (.num i) = intSer i from rfl]
    unfold intSer
    by_cases hneg : i < 0
    · rw [if_pos hneg]
      exact ⟨'-', _, rfl, by decide, by decide, by decide⟩
    · rw [if_neg hneg]
      have hne : natSer i.natAbs ≠ [] := natSerF_ne_nil (by omega)
      obtain ⟨c, t0, hct⟩ := List.exists_cons_of_ne_nil hne
      have hmem : c ∈ natSer i.natAbs := by rw [hct]; simp
      have hcd : c.isDigit = true :=
        natSerF_all_digits (show i.natAbs < i.natAbs + 1 by omega) c hmem
      obtain ⟨hws, -, -, -, -, -, -, hrb, hrc, -, -, -⟩ := digit_class hcd
      exact ⟨c, t0, hct, hws, hrb, hrc⟩

/-- The items of a non-empty array serialize to the indentation followed by
the first value and a tail. -/
theorem serItems_shape (ind : Nat) (x : Json) (xs : List Json) :
    ∃ tail0, serItems ind (x :: xs) = spaces ind ++ (serVal ind x ++ tail0) := by
  match xs with
  | [] => exact ⟨[], by rw [show serItems ind [x] = spaces ind ++ serVal ind x from rfl]; simp⟩
  | y :: ys =>
    exact ⟨',' :: '\n' :: serItems ind (y :: ys), rfl⟩

/-- The members of a non-empty object serialize to the indentation followed
by the quoted first key and a tail. -/
theorem serPairs_shape (ind : Nat) (k : String) (v : Json)
    (ps : List (String × Json)) :
    ∃ tail0, serPairs ind ((k, v) :: ps) =
      spaces ind ++ ('"' :: (escStr k.toList ++ '"' :: ':' :: ' ' :: serVal ind v) ++ tail0) := by
  match ps with
  | [] =>
    exact ⟨[], by rw [show serPairs ind [(k, v)] =
      spaces ind ++ ('"' :: (escStr k.toList ++ '"' :: ':' :: ' ' :: serVal ind v)) from rfl]; simp⟩
  | p :: ps2 =>
    exact ⟨',' :: '\n' :: serPairs ind (p :: ps2), by
      rw [show serPairs ind ((k, v) :: p :: ps2) =
        spaces ind ++ ('"' :: (escStr k.toList ++ '"' :: ':' :: ' ' :: serVal ind v)) ++
        ',' :: '\n' :: serPairs ind (p :: ps2) from rfl]
      simp [List.append_assoc]⟩

theorem Json.size_pos (v : Json) : 1 ≤ v.size := by
  cases v <;> simp [Json.size]

mutual

theorem size_le_serVal : ∀ (ind : Nat) (v : Json), v.size ≤ (serVal ind v).length
  | ind, .null => by simp [Json.size, serVal]
  | ind, .bool true => by simp [Json.size, serVal]
  | ind, .bool false => by simp [Json.size, serVal]
  | ind, .num i => by
    have h : intSer i ≠ [] := by
      unfold intSer
      by_cases hneg : i < 0
      · rw [if_pos hneg]; simp
      · rw [if_neg hneg]; exact natSerF_ne_nil (by omega)
    have : 1 ≤ (intSer i).length := by
      rcases List.exists_cons_of_ne_nil h with ⟨c, t, hct⟩
      rw [hct]; simp
    simpa [Json.size, serVal] using this
  | ind, .str s => by simp [Json.size, serVal]
  | ind, .arr [] => by simp [Json.size, Json.sizeItems, serVal]
  | ind, .arr (x :: xs) => by
    have h := sizeItems_le_serItems (ind + 2) (x :: xs)
    rw [show Json.size (.arr (x :: xs)) = 1 + Json.sizeItems (x :: xs) from rfl]
    rw [show serVal ind (.arr (x :: xs)) =
      '[' :: '\n' :: (serItems (ind + 2) (x :: xs) ++ '\n' :: (spaces ind ++ [']'])) from rfl]
    simp only [List.length_cons, List.length_append]
    omega
  | ind, .obj [] => by simp [Json.size, Json.sizePairs, serVal]
  | ind, .obj (p :: ps) => by
    have h := sizePairs_le_serPairs (ind + 2) (p :: ps)
    rw [show Json.size (.obj (p :: ps)) = 1 + Json.sizePairs (p :: ps) from rfl]
    rw [show serVal ind (.obj (p :: ps)) =
      '{' :: '\n' :: (serPairs (ind + 2) (p :: ps) ++ '\n' :: (spaces ind ++ ['}'])) from rfl]
    simp only [List.length_cons, List.length_append]
    omega

theorem sizeItems_le_serItems : ∀ (ind : Nat) (xs : List Json),
    Json.sizeItems xs ≤ (serItems ind xs).length + 1
  | ind, [] => by simp [Json.sizeItems, serItems]
  | ind, [x] => by
    have h := size_le_serVal ind x
    rw [show Json.sizeItems [x] = Json.size x + 1 + Json.sizeItems [] from rfl,
      show Json.sizeItems ([] : List Json) = 0 from rfl,
      show serItems ind [x] = spaces ind ++ serVal ind x from rfl]
    simp only [List.length_append]
    omega
  | ind, x :: y :: ys => by
    have h1 := size_le_serVal ind x
    have h2 := sizeItems_le_serItems ind (y :: ys)
    rw [show Json.sizeItems (x :: y :: ys) = Json.size x + 1 + Json.sizeItems (y :: ys) from rfl,
      show serItems ind (x :: y :: ys) =
        spaces ind ++ (serVal ind x ++ ',' :: '\n' :: serItems ind (y :: ys)) from rfl]
    simp only [List.length_append, List.length_cons]
    omega

theorem sizePairs_le_serPairs : ∀ (ind : Nat) (kvs : List (String × Json)),
    Json.sizePairs kvs ≤ (serPairs ind kvs).length + 1
  | ind, [] => by simp [Json.sizePairs, serPairs]
  | ind, [(k, v)] => by
    have h := size_le_serVal ind v
    rw [show Json.sizePairs [(k, v)] = Json.size v + 1 + Json.sizePairs [] from rfl,
      show Json.sizePairs ([] : List (String × Json)) = 0 from rfl,
      show serPairs ind [(k, v)] =
        spaces ind ++ ('"' :: (escStr k.toList ++ '"' :: ':' :: ' ' :: serVal ind v)) from rfl]
    simp only [List.length_append, List.length_cons]
    omega
  | ind, (k, v) :: p :: ps => by
    have h1 := size_le_serVal ind v
    have h2 := sizePairs_le_serPairs ind (p :: ps)
    rw [show Json.sizePairs ((k, v) :: p :: ps) =
        Json.size v + 1 + Json.sizePairs (p :: ps) from rfl,
      show serPairs ind ((k, v) :: p :: ps) =
        spaces ind ++ ('"' :: (escStr k.toList ++ '"' :: ':' :: ' ' :: serVal ind v)) ++
          ',' :: '\n' :: serPairs ind (p :: ps) from rfl]
    simp only [List.length_append, List.length_cons]
    omega

end

/-! ## The parser–serializer round trip -/

/-- Round trip: with fuel at least the value's size, the parser decodes a
serialized value (and the serialized items/members of non-empty containers)
back to the original, leaving the tail untouched. -/
theorem parse_ser : ∀ fuel : Nat,
    (∀ (v : Json) (ind : Nat) (rest : List Char), v.size ≤ fuel → goodTail rest →
      parseVal fuel (serVal ind v ++ rest) = some (v, rest)) ∧
    (∀ (x : Json) (xs : List Json) (ind j : Nat) (rest : List Char),
      Json.sizeItems (x :: xs) ≤ fuel →
      parseItems fuel (serItems ind (x :: xs) ++ '\n' :: (spaces j ++ ']' :: rest)) =
        some (x :: xs, rest)) ∧
    (∀ (k : String) (v : Json) (ps : List (String × Json)) (ind j : Nat)
        (rest : List Char),
      Json.sizePairs ((k, v) :: ps) ≤ fuel →
      parsePairs fuel (serPairs ind ((k, v) :: ps) ++ '\n' :: (spaces j ++ '}' :: rest)) =
        some ((k, v) :: ps, rest)) := by
  intro fuel
  induction fuel with
  | zero =>
    refine ⟨?_, ?_, ?_⟩
    · intro v ind rest hsz _
      exact absurd hsz (by have := Json.size_pos v; omega)
    · intro x xs ind j rest hsz
      rw [show Json.sizeItems (x :: xs) = Json.size x + 1 + Json.sizeItems xs from rfl] at hsz
      exact absurd hsz (by have := Json.size_pos x; omega)
    · intro k v ps ind j rest hsz
      rw [show Json.sizePairs ((k, v) :: ps) = Json.size v + 1 + Json.sizePairs ps from rfl] at hsz
      exact absurd hsz (by have := Json.size_pos v; omega)
  | succ fuel ih =>
    obtain ⟨ihv, ihi, ihp⟩ := ih
    refine ⟨?_, ?_, ?_⟩
    · intro v ind rest hsz hrest
      match v with
      | .null => exact rfl
      | .bool true => exact rfl
      | .bool false => exact rfl
      | .arr [] => exact rfl
      | .obj [] => exact rfl
      | .str s =>
        rw [show serVal ind (.str s) ++ rest = '"' :: ((escStr s.toList ++ ['"']) ++ rest) from rfl,
          List.append_assoc,
          show (['"'] ++ rest : List Char) = '"' :: rest from rfl]
        rw [show parseVal (fuel + 1) ('"' :: (escStr s.toList ++ '"' :: rest)) =
          (readStr (escStr s.toList ++ '"' :: rest)).map
            (fun p => (Json.str (String.mk p.1), p.2)) from rfl]
        rw [readStr_esc]
        simp [mk_toList]
      | .num i =>
        by_cases hneg : i < 0
        · have hser : serVal ind (.num i) = '-' :: natSer i.natAbs := by
            rw [show serVal ind (.num i) = intSer i from rfl]
            unfold intSer
            rw [if_pos hneg]
          rw [hser, List.cons_append, parseVal, skipWs_cons_of_not (by decide)]
          try dsimp only
          rw [if_neg (by decide), if_neg (by decide), if_neg (by decide),
            if_neg (by decide), if_neg (by decide), if_neg (by decide),
            if_pos (by decide)]
          rw [show '-' :: (natSer i.natAbs ++ rest) = intSer i ++ rest from by
            rw [show intSer i = '-' :: natSer i.natAbs from by
              unfold intSer; rw [if_pos hneg]]
            rfl]
          rw [parseNum_intSer hrest]
          rfl
        · have hser : serVal ind (.num i) = natSer i.natAbs := by
            rw [show serVal ind (.num i) = intSer i from rfl]
            unfold intSer
            rw [if_neg hneg]
          have hne : natSer i.natAbs ≠ [] := natSerF_ne_nil (by omega)
          obtain ⟨c, t0, hct⟩ := List.exists_cons_of_ne_nil hne
          have hmem : c ∈ natSer i.natAbs := by rw [hct]; simp
          have hcd : c.isDigit = true :=
            natSerF_all_digits (show i.natAbs < i.natAbs + 1 by omega) c hmem
          obtain ⟨hws2, hbr, hbk, hq, hT, hF, hN, -, -, -, -, -⟩ := digit_class hcd
          rw [hser, hct, List.cons_append, parseVal, skipWs_cons_of_not hws2]
          try dsimp only
          rw [if_neg hbr, if_neg hbk, if_neg hq, if_neg hT, if_neg hF, if_neg hN,
            if_pos (by simp [hcd])]
          rw [← List.cons_append, ← hct, ← hser,
            show serVal ind (.num i) = intSer i from rfl, parseNum_intSer hrest]
          rfl
      | .arr (x :: xs) =>
        obtain ⟨tail0, hshape⟩ := serItems_shape (ind + 2) x xs
        rw [show serVal ind (.arr (x :: xs)) ++ rest =
            '[' :: '\n' :: ((serItems (ind + 2) (x :: xs) ++
              '\n' :: (spaces ind ++ [']'])) ++ rest) from rfl,
          List.append_assoc,
          show ('\n' :: (spaces ind ++ [']'])) ++ rest =
            '\n' :: ((spaces ind ++ [']']) ++ rest) from rfl,
          List.append_assoc,
          show ([']'] ++ rest : List Char) = ']' :: rest from rfl]
        rw [show parseVal (fuel + 1) ('[' :: '\n' ::
              (serItems (ind + 2) (x :: xs) ++ '\n' :: (spaces ind ++ ']' :: rest))) =
            (match skipWs ('\n' :: (serItems (ind + 2) (x :: xs) ++
                '\n' :: (spaces ind ++ ']' :: rest))) with
              | ']' :: r2 => some (.arr [], r2)
              | _ => (parseItems fuel ('\n' :: (serItems (ind + 2) (x :: xs) ++
                  '\n' :: (spaces ind ++ ']' :: rest)))).map
                  (fun p => (Json.arr p.1, p.2))) from rfl]
        obtain ⟨c, t, hcV, hwsc, hneRB, hneRC⟩ := serVal_head (ind + 2) x
        have hsk : skipWs ('\n' :: (serItems (ind + 2) (x :: xs) ++
            '\n' :: (spaces ind ++ ']' :: rest))) =
            c :: (t ++ (tail0 ++ '\n' :: (spaces ind ++ ']' :: rest))) := by
          rw [skipWs_newline, hshape, List.append_assoc, skipWs_spaces,
            List.append_assoc, hcV, List.cons_append, skipWs_cons_of_not hwsc]
        rw [hsk]
        split
        · next r2 heq =>
          exact absurd (List.head_eq_of_cons_eq heq) hneRB
        · rw [parseItems_congr (skipWs_newline _), ihi x xs (ind + 2) ind rest (by
            rw [show Json.size (.arr (x :: xs)) = 1 + Json.sizeItems (x :: xs) from rfl] at hsz
            omega)]
          rfl
      | .obj (p :: ps) =>
        obtain ⟨k, v⟩ := p
        obtain ⟨tail0, hshape⟩ := serPairs_shape (ind + 2) k v ps
        rw [show serVal ind (.obj ((k, v) :: ps)) ++ rest =
            '{' :: '\n' :: ((serPairs (ind + 2) ((k, v) :: ps) ++
              '\n' :: (spaces ind ++ ['}'])) ++ rest) from rfl,
          List.append_assoc,
          show ('\n' :: (spaces ind ++ ['}'])) ++ rest =
            '\n' :: ((spaces ind ++ ['}']) ++ rest) from rfl,
          List.append_assoc,
          show (['}'] ++ rest : List Char) = '}' :: rest from rfl]
        rw [show parseVal (fuel + 1) ('{' :: '\n' ::
              (serPairs (ind + 2) ((k, v) :: ps) ++ '\n' :: (spaces ind ++ '}' :: rest))) =
            (match skipWs ('\n' :: (serPairs (ind + 2) ((k, v) :: ps) ++
                '\n' :: (spaces ind ++ '}' :: rest))) with
              | '}' :: r2 => some (.obj [], r2)
              | _ => (parsePairs fuel ('\n' :: (serPairs (ind + 2) ((k, v) :: ps) ++
                  '\n' :: (spaces ind ++ '}' :: rest)))).map
                  (fun p => (Json.obj p.1, p.2))) from rfl]
        have hsk : skipWs ('\n' :: (serPairs (ind + 2) ((k, v) :: ps) ++
            '\n' :: (spaces ind ++ '}' :: rest))) =
            '"' :: ((escStr k.toList ++ '"' :: ':' :: ' ' :: serVal (ind + 2) v) ++
              (tail0 ++ '\n' :: (spaces ind ++ '}' :: rest))) := by
          rw [skipWs_newline, hshape, List.append_assoc, skipWs_spaces,
            List.append_assoc, List.cons_append, skipWs_cons_of_not (by decide)]
        rw [hsk]
        split
        · next r2 heq =>
          exact absurd (List.head_eq_of_cons_eq heq).symm (by decide)
        · rw [parsePairs_congr (skipWs_newline _), ihp k v ps (ind + 2) ind rest (by
            rw [show Json.size (.obj ((k, v) :: ps)) =
              1 + Json.sizePairs ((k, v) :: ps) from rfl] at hsz
            omega)]
          rfl
    · intro x xs ind j rest hsz
      rw [show Json.sizeItems (x :: xs) = Json.size x + 1 + Json.sizeItems xs from rfl] at hsz
      have hszx : Json.size x ≤ fuel := by omega
      match xs with
      | [] =>
        rw [show serItems ind [x] = spaces ind ++ serVal ind x from rfl,
          List.append_assoc, parseItems, parseVal_congr (skipWs_spaces ind _),
          ihv x ind _ hszx (goodTail_cons (by decide))]
        try dsimp only
        rw [show skipWs ('\n' :: (spaces j ++ ']' :: rest)) = ']' :: rest from by
          rw [skipWs_newline, skipWs_spaces, skipWs_cons_of_not (by decide)]]
        rfl
      | y :: ys =>
        rw [show serItems ind (x :: y :: ys) =
          spaces ind ++ (serVal ind x ++ ',' :: '\n' :: serItems ind (y :: ys)) from rfl]
        simp only [List.append_assoc, List.cons_append]
        rw [parseItems, parseVal_congr (skipWs_spaces ind _),
          ihv x ind _ hszx (goodTail_cons (by decide))]
        conv_lhs => whnf
        rw [parseItems_congr (skipWs_newline _), ihi y ys ind j rest (by
          have := Json.size_pos x
          omega)]
    · intro k v ps ind j rest hsz
      rw [show Json.sizePairs ((k, v) :: ps) =
        Json.size v + 1 + Json.sizePairs ps from rfl] at hsz
      have hszv : Json.size v ≤ fuel := by omega
      match ps with
      | [] =>
        rw [show serPairs ind [(k, v)] =
          spaces ind ++ ('"' :: (escStr k.toList ++ '"' :: ':' :: ' ' :: serVal ind v)) from rfl]
        simp only [List.append_assoc, List.cons_append]
        rw [parsePairs, skipWs_spaces, skipWs_cons_of_not (by decide)]
        conv_lhs => whnf
        rw [readStr_esc]
        conv_lhs => whnf
        rw [parseVal_congr (skipWs_space _), ihv v ind _ hszv (goodTail_cons (by decide))]
        conv_lhs => whnf
        rw [show skipWs ('\n' :: (spaces j ++ '}' :: rest)) = '}' :: rest from by
          rw [skipWs_newline, skipWs_spaces, skipWs_cons_of_not (by decide)]]
        conv_lhs => whnf
        rw [mk_toList]
      | p :: ps2 =>
        obtain ⟨k2, v2⟩ := p
        rw [show serPairs ind ((k, v) :: (k2, v2) :: ps2) =
          spaces ind ++ ('"' :: (escStr k.toList ++ '"' :: ':' :: ' ' :: serVal ind v)) ++
            ',' :: '\n' :: serPairs ind ((k2, v2) :: ps2) from rfl]
        simp only [List.append_assoc, List.cons_append]
        rw [parsePairs, skipWs_spaces, skipWs_cons_of_not (by decide)]
        conv_lhs => whnf
        rw [readStr_esc]
        conv_lhs => whnf
        rw [parseVal_congr (skipWs_space _), ihv v ind _ hszv (goodTail_cons (by decide))]
        conv_lhs => whnf
        rw [parsePairs_congr (skipWs_newline _), ihp k2 v2 ps2 ind j rest (by
          have := Json.size_pos v
          omega)]
        conv_lhs => whnf
        rw [mk_toList]

/-- `json.loads` inverts `json.dumps`. -/
theorem loads_dumps (v : Json) : loads (dumps v) = some v := by
  unfold loads dumps
  rw [show (String.mk (serVal 0 v)).toList = serVal 0 v from rfl,
    show (String.mk (serVal 0 v)).length = (serVal 0 v).length from rfl]
  have hb : v.size ≤ (serVal 0 v).length + 1 := by
    have := size_le_serVal 0 v
    omega
  have h := (parse_ser ((serVal 0 v).length + 1)).1 v 0 [] hb (Or.inl rfl)
  rw [List.append_nil] at h
  rw [h]
  rfl

/-- A general form of `pySliceIdx` for non-negative indices. -/
theorem pySliceIdx_nonneg {n : Nat} {k : Int} (h0 : 0 ≤ k) :
    pySliceIdx n k = (min k (n : Int)).toNat := by
  simp only [pySliceIdx]
  omega

theorem serVal_obj_head (kvs : List (String × Json)) :
    ∃ l, serVal 0 (.obj kvs) = '{' :: l := by
  match kvs with
  | [] => exact ⟨['}'], rfl⟩
  | p :: ps => exact ⟨_, rfl⟩

theorem serVal_obj_rev (kvs : List (String × Json)) :
    ∃ l, (serVal 0 (.obj kvs)).reverse = '}' :: l := by
  match kvs with
  | [] => exact ⟨['{'], rfl⟩
  | p :: ps =>
    refine ⟨'\n' :: (serPairs 2 (p :: ps)).reverse ++ ['\n', '{'], ?_⟩
    rw [show serVal 0 (.obj (p :: ps)) =
      '{' :: '\n' :: (serPairs 2 (p :: ps) ++ '\n' :: (spaces 0 ++ ['}'])) from rfl,
      show spaces 0 = ([] : List Char) from rfl]
    simp

/-- Zeta-free description of `pySlice`. -/
theorem pySlice_eq (s : String) (start stop : Int) :
    pySlice s start stop = String.mk
      ((s.toList.take (pySliceIdx s.toList.length stop)).drop
        (pySliceIdx s.toList.length start)) := rfl

/-- Extracting the brace-delimited substring of a serialized object is the
identity: the first `\x7b` is its first character, the last `\x7d` its last. -/
theorem extract_dumps_obj (kvs : List (String × Json)) :
    extractJson (dumps (.obj kvs)) = dumps (.obj kvs) := by
  obtain ⟨l, hl⟩ := serVal_obj_head kvs
  obtain ⟨l2, hl2⟩ := serVal_obj_rev kvs
  have htl : (dumps (.obj kvs)).toList = serVal 0 (.obj kvs) := rfl
  have hlen : (dumps (.obj kvs)).length = (serVal 0 (.obj kvs)).length := rfl
  have hfind : pyFindChar (dumps (.obj kvs)) '{' = 0 := by
    unfold pyFindChar
    rw [htl, hl]
    rw [List.findIdx?_cons]
    simp
  have hrfind : pyRfindChar (dumps (.obj kvs)) '}' =
      ((serVal 0 (.obj kvs)).length : Int) - 1 := by
    unfold pyRfindChar
    rw [htl, hl2, List.findIdx?_cons]
    simp [hlen]
  unfold extractJson
  rw [hfind, hrfind, pySlice_eq, htl]
  have hn : 1 ≤ (serVal 0 (.obj kvs)).length := by rw [hl]; simp
  have h1 : pySliceIdx (serVal 0 (.obj kvs)).length (0 : Int) = 0 := by
    rw [pySliceIdx_nonneg (by omega)]
    omega
  have h2 : pySliceIdx (serVal 0 (.obj kvs)).length
      (((serVal 0 (.obj kvs)).length : Int) - 1 + 1) =
      (serVal 0 (.obj kvs)).length := by
    rw [pySliceIdx_nonneg (by omega)]
    omega
  rw [h1, h2, List.take_length, List.drop_zero]
  rfl

/-- A successful `parseVal` on input whose first non-whitespace character is
`\x7b` yields an object. -/
theorem parseVal_obj_result : ∀ {fuel : Nat} {cs rest r : List Char} {v : Json},
    parseVal fuel cs = some (v, rest) → skipWs cs = '{' :: r →
    ∃ kvs, v = Json.obj kvs := by
  intro fuel
  match fuel with
  | 0 => intro cs rest r v h _; simp [parseVal] at h
  | fuel + 1 =>
    intro cs rest r v h hh
    rw [parseVal, hh] at h
    dsimp only at h
    rw [if_pos rfl] at h
    split at h
    · injection h with h2
      exact ⟨[], (congrArg Prod.fst h2).symm⟩
    · rcases Option.map_eq_some'.mp h with ⟨p, hp, heq⟩
      exact ⟨p.1, (congrArg Prod.fst heq).symm⟩

/-- If the brace-window of `x` contains no opening brace, the extracted
substring is empty or the single closing brace. -/
theorem extract_no_brace {x : String}
    (hf : x.toList.findIdx? (fun c => c = '{') = none) :
    (extractJson x).toList = [] ∨ (extractJson x).toList = ['}'] := by
  have hneg : pyFindChar x '{' = -1 := by
    unfold pyFindChar
    rw [hf]
  unfold extractJson
  rw [hneg, pySlice_eq, toList_mk, pySliceIdx_neg_one]
  rcases hr : x.toList.reverse.findIdx? (fun c => c = '}') with _ | i
  · have : pyRfindChar x '}' = -1 := by
      unfold pyRfindChar
      rw [hr]
    rw [this]
    have h0 : pySliceIdx x.toList.length (-1 + 1 : Int) = 0 := by
      rw [show (-1 + 1 : Int) = 0 from by ring, pySliceIdx_nonneg (by omega)]
      omega
    rw [h0]
    simp
  · have hrf : pyRfindChar x '}' = (x.length : Int) - 1 - i := by
      unfold pyRfindChar
      rw [hr]
    rw [hrf]
    obtain ⟨hlt, hpi, -⟩ := List.findIdx?_eq_some_iff_getElem.1 hr
    rw [List.length_reverse] at hlt
    have hcast : (x.length : Int) = (x.toList.length : Int) := by
      rw [str_length_toList]
    by_cases hi : i = 0
    · subst hi
      right
      simp only [Nat.cast_zero]
      have hstop : pySliceIdx x.toList.length ((x.length : Int) - 1 - 0 + 1) =
          x.toList.length := by
        rw [hcast, pySliceIdx_nonneg (by omega)]
        omega
      rw [hstop, List.take_length]
      have hbnd : x.toList.length - 1 < x.toList.length := by omega
      have hlast : x.toList[x.toList.length - 1] = '}' := by
        have := List.getElem_reverse (l := x.toList) (i := 0) (by simpa using hlt)
        simp only [Nat.sub_zero] at this
        rw [← this]
        simpa using hpi
      rw [List.drop_eq_getElem_cons (show x.toList.length - 1 < x.toList.length by omega)]
      rw [hlast]
      have : x.toList.drop (x.toList.length - 1 + 1) = [] :=
        List.drop_eq_nil_of_le (by omega)
      rw [this]
    · left
      have hstop : pySliceIdx x.toList.length ((x.length : Int) - 1 - i + 1) ≤
          x.toList.length - 1 := by
        rw [hcast, pySliceIdx_nonneg (by omega)]
        omega
      exact List.drop_eq_nil_of_le (by
        have := List.length_take_le (pySliceIdx x.toList.length
          ((x.length : Int) - 1 - i + 1)) x.toList
        have h2 : (x.toList.take (pySliceIdx x.toList.length
            ((x.length : Int) - 1 - i + 1))).length ≤ x.toList.length - 1 := by
          have := List.length_take (pySliceIdx x.toList.length
            ((x.length : Int) - 1 - i + 1)) x.toList
          omega
        omega)

/-- Anything `loads` accepts out of the brace-window extraction is a JSON
object. -/
theorem loads_extract_obj {x : String} {v : Json}
    (h : loads (extractJson x) = some v) : ∃ kvs, v = Json.obj kvs := by
  rcases hf : x.toList.findIdx? (fun c => c = '{') with _ | i
  · rcases extract_no_brace hf with he | he
    · rcases hs : extractJson x with ⟨data⟩
      rw [hs] at he h
      rw [show (String.mk data).toList = data from rfl] at he
      subst he
      exact absurd h (by rw [show loads (String.mk []) = none from rfl]; simp)
    · rcases hs : extractJson x with ⟨data⟩
      rw [hs] at he h
      rw [show (String.mk data).toList = data from rfl] at he
      subst he
      exact absurd h (by rw [show loads (String.mk ['}']) = none from rfl]; simp)
  · -- the extraction starts at the first brace
    have hpos : pyFindChar x '{' = (i : Int) := by
      unfold pyFindChar
      rw [hf]
    obtain ⟨hlt, hpi, -⟩ := List.findIdx?_eq_some_iff_getElem.1 hf
    have hbr : x.toList[i] = '{' := by simpa using hpi
    have hlo : pySliceIdx x.toList.length ((i : Nat) : Int) = i := by
      rw [pySliceIdx_nonneg (by omega)]
      omega
    have htl : (extractJson x).toList =
        (x.toList.take (pySliceIdx x.toList.length (pyRfindChar x '}' + 1))).drop i := by
      unfold extractJson
      rw [hpos, pySlice_eq, toList_mk, hlo]
    set hi2 := pySliceIdx x.toList.length (pyRfindChar x '}' + 1) with hhi2
    by_cases hcmp : (x.toList.take hi2).length ≤ i
    · -- empty extraction cannot load
      have he : (extractJson x).toList = [] := by
        rw [htl]
        exact List.drop_eq_nil_of_le hcmp
      rcases hs : extractJson x with ⟨data⟩
      rw [hs] at he h
      rw [show (String.mk data).toList = data from rfl] at he
      subst he
      exact absurd h (by rw [show loads (String.mk []) = none from rfl]; simp)
    · -- the extraction starts with the brace
      push_neg at hcmp
      have hgl : (x.toList.take hi2)[i] = '{' := by
        rw [List.getElem_take]
        exact hbr
      have he : (extractJson x).toList = '{' :: (x.toList.take hi2).drop (i + 1) := by
        rw [htl, List.drop_eq_getElem_cons hcmp, hgl]
      unfold loads at h
      rcases hp : parseVal ((extractJson x).length + 1) (extractJson x).toList with
        _ | ⟨v0, rest⟩
      · rw [hp] at h; cases h
      · rw [hp] at h
        dsimp only at h
        by_cases hw : skipWs rest = []
        · rw [if_pos hw] at h
          injection h with h2
          subst h2
          have hsk : skipWs (extractJson x).toList =
              '{' :: (x.toList.take hi2).drop (i + 1) := by
            rw [he, skipWs_cons_of_not (by decide)]
          exact parseVal_obj_result hp hsk
        · rw [if_neg hw] at h; cases h

/-! ## C4 — idempotent pretty-printing -/

/-- Counterexample to claim C4: on non-decodable text
`format_cluster_status` does NOT return the original text unmodified — it
returns a tagged, stripped copy (`"[Raw Cluster Output]\n" + raw.strip()`).
For the input "hello" the brace-window extraction is empty, decoding fails,
and the result differs from the input. -/
theorem format_not_identity_on_failure_cex :
    loads (extractJson "hello") = none ∧
    format_cluster_status "hello" ≠ "hello" ∧
    format_cluster_status "hello" = "[Raw Cluster Output]\nhello" :=
  ⟨rfl, by decide, rfl⟩

/-- Claim C4 as amended: both helpers are idempotent on any text whose
brace-delimited substring decodes (the decoded value is necessarily an
object, its 2-space-indented serialization extracts and re-decodes to
itself); on non-decodable text `_beautify_if_json` returns the text
unchanged, but `format_cluster_status` returns the tagged stripped copy,
not the original. -/
theorem format_helpers_amended :
    (∀ x v, loads (extractJson x) = some v →
      beautify_if_json (beautify_if_json x) = beautify_if_json x) ∧
    (∀ x, loads (extractJson x) = none → beautify_if_json x = x) ∧
    (∀ x v, loads (extractJson x) = some v →
      format_cluster_status (format_cluster_status x) = format_cluster_status x) ∧
    (∀ x, loads (extractJson x) = none →
      format_cluster_status x = "[Raw Cluster Output]\n" ++ pyStrip x) := by
  refine ⟨?_, ?_, ?_, ?_⟩
  · intro x v h
    obtain ⟨kvs, rfl⟩ := loads_extract_obj h
    have hb : beautify_if_json x = dumps (.obj kvs) := by
      simp only [beautify_if_json, h]
    rw [hb]
    simp only [beautify_if_json, extract_dumps_obj, loads_dumps]
  · intro x h
    simp only [beautify_if_json, h]
  · intro x v h
    obtain ⟨kvs, rfl⟩ := loads_extract_obj h
    have hb : format_cluster_status x = dumps (.obj kvs) := by
      simp only [format_cluster_status, h]
    rw [hb]
    simp only [format_cluster_status, extract_dumps_obj, loads_dumps]
  · intro x h
    simp only [format_cluster_status, h]

/-- Witness for the amended C4 theorem at the decodable input "a\x7b\x7db"
(whose brace window decodes to the empty object) and the non-decodable
input "hello". -/
theorem format_helpers_amended_w :
    beautify_if_json (beautify_if_json "a\x7b\x7db") = beautify_if_json "a\x7b\x7db" ∧
    beautify_if_json "hello" = "hello" ∧
    format_cluster_status (format_cluster_status "a\x7b\x7db") =
      format_cluster_status "a\x7b\x7db" ∧
    format_cluster_status "hello" = "[Raw Cluster Output]\n" ++ pyStrip "hello" :=
  ⟨format_helpers_amended.1 "a\x7b\x7db" (.obj []) rfl,
   format_helpers_amended.2.1 "hello" rfl,
   format_helpers_amended.2.2.1 "a\x7b\x7db" (.obj []) rfl,
   format_helpers_amended.2.2.2 "hello" rfl⟩

/-! ## C9 — LED animator timer invariant -/

theorem alup_adel_self {α : Type} (l : List (String × α)) (k : String) :
    alup (adel l k) k = none := by
  induction l with
  | nil => rfl
  | cons p t ih =>
    rw [adel]
    by_cases h : p.1 = k
    · rw [if_pos h]; exact ih
    · rw [if_neg h, alup, if_neg h]; exact ih

theorem alup_adel_ne {α : Type} {u k : String} (h : u ≠ k)
    (l : List (String × α)) : alup (adel l k) u = alup l u := by
  induction l with
  | nil => rfl
  | cons p t ih =>
    rw [adel]
    by_cases hp : p.1 = k
    · rw [if_pos hp, alup, if_neg (by rw [hp]; exact fun e => h e.symm)]
      exact ih
    · rw [if_neg hp, alup, alup]
      by_cases hu : p.1 = u
      · rw [if_pos hu, if_pos hu]
      · rw [if_neg hu, if_neg hu]; exact ih

theorem alup_aset_self {α : Type} (l : List (String × α)) (k : String) (v : α) :
    alup (aset l k v) k = some v := by
  rw [aset, alup, if_pos rfl]

theorem alup_aset_ne {α : Type} {u k : String} (h : u ≠ k)
    (l : List (String × α)) (v : α) : alup (aset l k v) u = alup l u := by
  rw [aset, alup, if_neg (fun e => h e.symm)]
  exact alup_adel_ne h l

theorem mem_tdel {t : List (Nat × String)} {i : Nat} {p : Nat × String}
    (h : p ∈ tdel t i) : p ∈ t ∧ p.1 ≠ i := by
  induction t with
  | nil => cases h
  | cons q tl ih =>
    rw [tdel] at h
    by_cases hq : q.1 = i
    · rw [if_pos hq] at h
      obtain ⟨hm, hne⟩ := ih h
      exact ⟨List.mem_cons_of_mem _ hm, hne⟩
    · rw [if_neg hq] at h
      rcases List.mem_cons.1 h with he | hm
      · exact ⟨by rw [he]; exact List.mem_cons_self _ _, by rw [he]; exact hq⟩
      · obtain ⟨hm2, hne⟩ := ih hm
        exact ⟨List.mem_cons_of_mem _ hm2, hne⟩

theorem tdel_sublist (t : List (Nat × String)) (i : Nat) :
    List.Sublist (tdel t i) t := by
  induction t with
  | nil => exact List.Sublist.refl _
  | cons q tl ih =>
    rw [tdel]
    by_cases hq : q.1 = i
    · rw [if_pos hq]; exact List.Sublist.cons _ ih
    · rw [if_neg hq]; exact List.Sublist.cons₂ _ ih

theorem tfind_mem {t : List (Nat × String)} {i : Nat} {w : String}
    (h : tfind t i = some w) : (i, w) ∈ t := by
  induction t with
  | nil => cases h
  | cons q tl ih =>
    rw [tfind] at h
    by_cases hq : q.1 = i
    · rw [if_pos hq] at h
      injection h with h2
      have : q = (i, w) := by
        cases q
        simp only at hq h2
        rw [hq, h2]
      rw [← this]
      exact List.mem_cons_self _ _
    · rw [if_neg hq] at h
      exact List.mem_cons_of_mem _ (ih h)

theorem tcount_eq_zero {t : List (Nat × String)} {w : String}
    (h : ∀ q ∈ t, q.2 ≠ w) : tcount t w = 0 := by
  induction t with
  | nil => rfl
  | cons q tl ih =>
    rw [tcount, if_neg (h q (List.mem_cons_self _ _))]
    rw [ih (fun q2 hq2 => h q2 (List.mem_cons_of_mem _ hq2))]

theorem tcount_le_one_of : ∀ (t : List (Nat × String)) (w : String),
    (t.map Prod.fst).Nodup →
    (∀ p, p ∈ t → ∀ q, q ∈ t → p.2 = w → q.2 = w → p.1 = q.1) →
    tcount t w ≤ 1 := by
  intro t
  induction t with
  | nil => intro w _ _; exact Nat.zero_le 1
  | cons p tl ih =>
    intro w hnd hf
    rw [List.map_cons, List.nodup_cons] at hnd
    obtain ⟨hp1, hndtl⟩ := hnd
    rw [tcount]
    by_cases hw : p.2 = w
    · rw [if_pos hw]
      have h0 : tcount tl w = 0 := tcount_eq_zero (fun q hq hqw => by
        have heq := hf p (List.mem_cons_self _ _) q (List.mem_cons_of_mem _ hq) hw hqw
        exact hp1 (heq ▸ List.mem_map_of_mem Prod.fst hq))
      omega
    · rw [if_neg hw]
      have := ih w hndtl (fun p2 hp2 q hq =>
        hf p2 (List.mem_cons_of_mem _ hp2) q (List.mem_cons_of_mem _ hq))
      omega

/-- `stop` preserves the invariant and leaves the widget with no pending
timer: cancelling the recorded after-id removes the widget's only timer. -/
theorem ledInv_stop {s : LedState} (hs : LedInv s) (w : String) :
    LedInv (stopLed s w) ∧ ∀ j, (j, w) ∉ (stopLed s w).timers := by
  obtain ⟨hA, hB, hC, hD⟩ := hs
  cases hj : alup s.jobs w with
  | none =>
    have hst : stopLed s w =
        ⟨s.alive, adel s.jobs w, adel s.blink w, s.timers, s.next⟩ := by
      unfold stopLed; rw [hj]
    rw [hst]
    refine ⟨⟨?_, ?_, ?_, hD⟩, ?_⟩
    · intro j u hm
      have hu : u ≠ w := fun e => by
        rw [e] at hm
        rw [hA j w hm] at hj
        cases hj
      rw [alup_adel_ne hu]
      exact hA j u hm
    · intro u j h
      by_cases hu : u = w
      · rw [hu, alup_adel_self] at h; cases h
      · rw [alup_adel_ne hu] at h; exact hB u j h
    · intro j u hm
      have hu : u ≠ w := fun e => by
        rw [e] at hm
        rw [hA j w hm] at hj
        cases hj
      rw [alup_adel_ne hu]
      exact hC j u hm
    · intro j hm
      rw [hA j w hm] at hj
      cases hj
  | some i =>
    have hst : stopLed s w =
        ⟨s.alive, adel s.jobs w, adel s.blink w, tdel s.timers i, s.next⟩ := by
      unfold stopLed; rw [hj]
    rw [hst]
    refine ⟨⟨?_, ?_, ?_, ?_⟩, ?_⟩
    · intro j u hm
      obtain ⟨hm2, hne⟩ := mem_tdel hm
      have hu : u ≠ w := fun e => by
        rw [e] at hm2
        rw [hA j w hm2] at hj
        injection hj with h2
        exact hne h2
      rw [alup_adel_ne hu]
      exact hA j u hm2
    · intro u j h
      by_cases hu : u = w
      · rw [hu, alup_adel_self] at h; cases h
      · rw [alup_adel_ne hu] at h; exact hB u j h
    · intro j u hm
      obtain ⟨hm2, hne⟩ := mem_tdel hm
      have hu : u ≠ w := fun e => by
        rw [e] at hm2
        rw [hA j w hm2] at hj
        injection hj with h2
        exact hne h2
      rw [alup_adel_ne hu]
      exact hC j u hm2
    · exact (hD.sublist ((tdel_sublist s.timers i).map Prod.fst))
    · intro j hm
      obtain ⟨hm2, hne⟩ := mem_tdel hm
      rw [hA j w hm2] at hj
      injection hj with h2
      exact hne h2

/-- `_step` keeps the invariant provided the widget has no pending timer
already and still has a blink state; it never errors out under these
preconditions. -/
theorem ledStep_inv {t : LedState} {w : String}
    (hA : ∀ j u, (j, u) ∈ t.timers → alup t.jobs u = some j)
    (hB : ∀ u j, alup t.jobs u = some j → j < t.next)
    (hC : ∀ j u, (j, u) ∈ t.timers → alup t.blink u ≠ none)
    (hD : (t.timers.map Prod.fst).Nodup)
    (hW : ∀ j, (j, w) ∉ t.timers)
    (hb : alup t.blink w ≠ none) :
    ∃ s2, ledStep t w = .ok s2 ∧ LedInv s2 := by
  by_cases ha : w ∈ t.alive
  · cases hbv : alup t.blink w with
    | none => exact absurd hbv hb
    | some b =>
      refine ⟨⟨t.alive, aset t.jobs w t.next, aset t.blink w (!b),
        (t.next, w) :: t.timers, t.next + 1⟩, ?_, ?_, ?_, ?_, ?_⟩
      · rw [ledStep, if_pos ha, hbv]
      · intro j u hm
        rcases List.mem_cons.1 hm with he | hm2
        · injection he with h1 h2
          rw [h2, h1, alup_aset_self]
        · have hu : u ≠ w := fun e => hW j (e ▸ hm2)
          rw [alup_aset_ne hu]
          exact hA j u hm2
      · intro u j h
        by_cases hu : u = w
        · rw [hu, alup_aset_self] at h
          injection h with h2
          show j < t.next + 1
          omega
        · rw [alup_aset_ne hu] at h
          have := hB u j h
          show j < t.next + 1
          omega
      · intro j u hm
        rcases List.mem_cons.1 hm with he | hm2
        · injection he with h1 h2
          rw [h2, alup_aset_self]
          exact fun h => by cases h
        · have hu : u ≠ w := fun e => hW j (e ▸ hm2)
          rw [alup_aset_ne hu]
          exact hC j u hm2
      · rw [List.map_cons]
        refine List.nodup_cons.2 ⟨?_, hD⟩
        intro hmem
        obtain ⟨p, hp, hfst⟩ := List.mem_map.1 hmem
        have := hB p.2 p.1 (hA p.1 p.2 hp)
        omega
  · exact ⟨t, by rw [ledStep, if_neg ha], hA, hB, hC, hD⟩

/-- Every single `LEDManager` event preserves the invariant and succeeds. -/
theorem ledInv_exec {s : LedState} (hs : LedInv s) (op : LedOp) :
    ∃ s2, execLed s op = .ok s2 ∧ LedInv s2 := by
  obtain ⟨hA, hB, hC, hD⟩ := hs
  cases op with
  | createW w =>
    exact ⟨_, rfl, hA, hB, hC, hD⟩
  | destroyW w =>
    exact ⟨_, rfl, hA, hB, hC, hD⟩
  | stopW w =>
    exact ⟨_, rfl, (ledInv_stop ⟨hA, hB, hC, hD⟩ w).1⟩
  | setW w f blink =>
    cases blink with
    | false =>
      exact ⟨stopLed s w, rfl, (ledInv_stop ⟨hA, hB, hC, hD⟩ w).1⟩
    | true =>
      obtain ⟨⟨hA1, hB1, hC1, hD1⟩, hW1⟩ := ledInv_stop ⟨hA, hB, hC, hD⟩ w
      obtain ⟨s2, hstep, hinv⟩ := ledStep_inv (t := ⟨(stopLed s w).alive,
          (stopLed s w).jobs, aset (stopLed s w).blink w false,
          (stopLed s w).timers, (stopLed s w).next⟩)
        hA1 hB1
        (by
          intro j u hm
          by_cases hu : u = w
          · rw [hu]
            show alup (aset (stopLed s w).blink w false) w ≠ none
            rw [alup_aset_self]
            exact fun h => by cases h
          · show alup (aset (stopLed s w).blink w false) u ≠ none
            rw [alup_aset_ne hu]
            exact hC1 j u hm)
        hD1 hW1
        (by
          show alup (aset (stopLed s w).blink w false) w ≠ none
          rw [alup_aset_self]
          exact fun h => by cases h)
      refine ⟨s2, ?_, hinv⟩
      show ledStep ⟨(stopLed s w).alive, (stopLed s w).jobs,
        aset (stopLed s w).blink w false, (stopLed s w).timers,
        (stopLed s w).next⟩ w = .ok s2
      exact hstep
  | blinkBetweenW w a b iv =>
    obtain ⟨⟨hA1, hB1, hC1, hD1⟩, hW1⟩ := ledInv_stop ⟨hA, hB, hC, hD⟩ w
    obtain ⟨s2, hstep, hinv⟩ := ledStep_inv (t := ⟨(stopLed s w).alive,
        (stopLed s w).jobs, aset (stopLed s w).blink w false,
        (stopLed s w).timers, (stopLed s w).next⟩)
      hA1 hB1
      (by
        intro j u hm
        by_cases hu : u = w
        · rw [hu]
          show alup (aset (stopLed s w).blink w false) w ≠ none
          rw [alup_aset_self]
          exact fun h => by cases h
        · show alup (aset (stopLed s w).blink w false) u ≠ none
          rw [alup_aset_ne hu]
          exact hC1 j u hm)
      hD1 hW1
      (by
        show alup (aset (stopLed s w).blink w false) w ≠ none
        rw [alup_aset_self]
        exact fun h => by cases h)
    refine ⟨s2, ?_, hinv⟩
    show ledStep ⟨(stopLed s w).alive, (stopLed s w).jobs,
      aset (stopLed s w).blink w false, (stopLed s w).timers,
      (stopLed s w).next⟩ w = .ok s2
    exact hstep
  | fireT i =>
    cases hf : tfind s.timers i with
    | none =>
      refine ⟨s, ?_, hA, hB, hC, hD⟩
      simp only [execLed, hf]
    | some w =>
      have hm0 : (i, w) ∈ s.timers := tfind_mem hf
      obtain ⟨s2, hstep, hinv⟩ := ledStep_inv
        (t := ⟨s.alive, s.jobs, s.blink, tdel s.timers i, s.next⟩)
        (by
          intro j u hm
          exact hA j u (mem_tdel hm).1)
        hB
        (by
          intro j u hm
          exact hC j u (mem_tdel hm).1)
        (hD.sublist ((tdel_sublist s.timers i).map Prod.fst))
        (by
          intro j hm
          obtain ⟨hm2, hne⟩ := mem_tdel hm
          have h1 := hA j w hm2
          have h2 := hA i w hm0
          rw [h1] at h2
          injection h2 with h3
          exact hne h3)
        (hC i w hm0)
      refine ⟨s2, ?_, hinv⟩
      simp only [execLed, hf]
      exact hstep

/-- Running any event sequence from an invariant state succeeds and lands
in an invariant state. -/
theorem ledInv_run {s : LedState} (hs : LedInv s) :
    ∀ ops : List LedOp, ∃ s2, runLed s ops = .ok s2 ∧ LedInv s2 := by
  intro ops
  induction ops generalizing s with
  | nil => exact ⟨s, rfl, hs⟩
  | cons op ops ih =>
    obtain ⟨s2, he, h2⟩ := ledInv_exec hs op
    obtain ⟨s3, hr, h3⟩ := ih h2
    refine ⟨s3, ?_, h3⟩
    rw [runLed, he]
    exact hr

theorem ledInv_init : LedInv ledInit := by
  refine ⟨?_, ?_, ?_, ?_⟩
  · intro j u hm; cases hm
  · intro u j h; cases h
  · intro j u hm; cases hm
  · exact List.nodup_nil

/-- Claim C9: from a fresh `LEDManager`, any sequence of widget
creations/destructions, `set`/`blink_between`/`stop` calls and timer firings
runs without error (destroyed subjects never raise), leaves at most one
pending toggle timer per widget (each start cancels the prior timer), and a
tick whose subject has been destroyed merely consumes its timer — no
reconfiguration, no rescheduling — so the animation stops. -/
theorem led_single_timer (ops : List LedOp) :
    ∃ s : LedState, runLed ledInit ops = .ok s ∧
      (∀ w, tcount s.timers w ≤ 1) ∧
      (∀ i w, tfind s.timers i = some w → w ∉ s.alive →
        execLed s (.fireT i) =
          .ok ⟨s.alive, s.jobs, s.blink, tdel s.timers i, s.next⟩) := by
  obtain ⟨s, hr, hA, hB, hC, hD⟩ := ledInv_run ledInv_init ops
  refine ⟨s, hr, ?_, ?_⟩
  · intro w
    refine tcount_le_one_of s.timers w hD ?_
    intro p hp q hq hpw hqw
    have h1 : alup s.jobs p.2 = some p.1 := hA p.1 p.2 hp
    have h2 : alup s.jobs q.2 = some q.1 := hA q.1 q.2 hq
    rw [hpw] at h1
    rw [hqw] at h2
    rw [h1] at h2
    exact Option.some.inj h2
  · intro i w hf hd
    simp only [execLed, hf, ledStep]
    rw [if_neg hd]

/-- Witness for C9 at a concrete event trace: a widget is created, two
blink animations are started back to back (the second cancels the first's
timer), a timer fires, the widget is destroyed, and a stale timer fires on
the destroyed widget. -/
theorem led_single_timer_w :
    ∃ s : LedState,
      runLed ledInit [.createW "a", .blinkBetweenW "a" "f1" "f2" 500,
        .blinkBetweenW "a" "g1" "g2" 250, .fireT 1, .destroyW "a",
        .fireT 2] = .ok s ∧ (∀ w, tcount s.timers w ≤ 1) := by
  obtain ⟨s, hr, h1, h2⟩ := led_single_timer [.createW "a",
    .blinkBetweenW "a" "f1" "f2" 500, .blinkBetweenW "a" "g1" "g2" 250,
    .fireT 1, .destroyW "a", .fireT 2]
  exact ⟨s, hr, h1⟩

end ClusterDuck
